import Mathlib

/-!
# MirrorTrader — shallow embedding and verification

This file embeds the core logic of the MirrorTrader repository
(`source/mirror_trader/`) in Lean 4, and proves or refutes the frozen claims
about its specification.

Modelling conventions:
* Python `float` prices / percentages are modelled as exact rationals (`ℚ`);
  `round(x, 2)` is modelled as decimal rounding to 2 places with ties to even
  (`pyRound2`), matching Python's round-half-to-even rule; `int(x)` is
  truncation toward zero (`pyTrunc`).
* Python `datetime.date` values are modelled by `PyDate` (proleptic Gregorian
  triples); `timedelta` arithmetic goes through the standard civil-from-days /
  days-from-civil conversions.
* Message text is a `List Char`; the regular expressions compiled in
  `TradeAlerts.__init__` are embedded as explicit character-level matchers,
  one per filter, with `re.search` semantics (leftmost match, alternation
  order as written).
* External collaborators (the `dateutil` parser and `fuzzywuzzy.fuzz.ratio`)
  are passed in as total oracle functions: their outputs flow through the
  embedded code unchanged and no claim depends on their internals.
* Paths on which the Python code would raise an uncaught exception are
  modelled by `Option`/dedicated constructors returning `none`/`.crash`.
-/

namespace MirrorTrader

/-! ## Character classes and Python string helpers -/

/-- ASCII uppercase letter, the `[A-Z]` class (no `re.IGNORECASE`). -/
def isUpperAZ (c : Char) : Bool := 'A' ≤ c && c ≤ 'Z'

/-- ASCII lowercase letter, the `[a-z]` class. -/
def isLowerAZ (c : Char) : Bool := 'a' ≤ c && c ≤ 'z'

/-- ASCII letter, the `[A-Z]` class under `re.IGNORECASE`. -/
def isAlphaAZ (c : Char) : Bool := isUpperAZ c || isLowerAZ c

/-- ASCII digit, the `\d` class (inputs are ASCII). -/
def isDigitC (c : Char) : Bool := '0' ≤ c && c ≤ '9'

/-- Python `\s` whitespace class (also the characters stripped by `str.strip`). -/
def isPySpace (c : Char) : Bool :=
  c = ' ' || c = '\t' || c = '\n' || c = '\r' || c = '\x0b' || c = '\x0c'

/-- Word character `\w` (ASCII fragment): letters, digits, underscore. -/
def isWordC (c : Char) : Bool := isAlphaAZ c || isDigitC c || c = '_'

/-- The `[.,]` separator class of the strike/price/stop filters. -/
def isSepC (c : Char) : Bool := c = '.' || c = ','

/-- ASCII upper-casing of a character, as Python `str.upper` on ASCII input. -/
def upChar (c : Char) : Char :=
  if isLowerAZ c then Char.ofNat (c.toNat - 32) else c

/-- ASCII lower-casing of a character, as Python `str.lower` on ASCII input. -/
def lowChar (c : Char) : Char :=
  if isUpperAZ c then Char.ofNat (c.toNat + 32) else c

/-- Python `str.upper` on a character list. -/
def upperL (l : List Char) : List Char := l.map upChar

/-- Python `str.lower` on a character list. -/
def lowerL (l : List Char) : List Char := l.map lowChar

/-- Python `str.upper` on a `String` (ASCII). -/
def pyUpper (s : String) : String := String.mk (upperL s.toList)

/-- Does `needle` occur as a contiguous substring of `hay`?  Models Python's
`needle in hay`. -/
def containsSub (needle hay : List Char) : Bool :=
  match hay with
  | [] => needle = []
  | _ :: t => needle.isPrefixOf hay || containsSub needle t

/-- Python `str.strip()`: drop `\s` characters from both ends. -/
def pyStrip (l : List Char) : List Char :=
  ((l.dropWhile isPySpace).reverse.dropWhile isPySpace).reverse

/-- Case-insensitive matching of the literal `pat` at the head of `l`;
returns the matched original characters and the rest. -/
def ciToken (pat : List Char) (l : List Char) : Option (List Char × List Char) :=
  match pat, l with
  | [], rest => some ([], rest)
  | _ :: _, [] => none
  | p :: ps, c :: cs =>
      if upChar p = upChar c then
        match ciToken ps cs with
        | some (m, rest) => some (c :: m, rest)
        | none => none
      else none

/-- Numeric value of a digit list (used for Python `int` on digit strings). -/
def digitsToNat (l : List Char) : ℕ :=
  l.foldl (fun acc c => acc * 10 + (c.toNat - '0'.toNat)) 0

/-- Python `float` on a cleaned price token: digits with at most one dot and
at least one digit; `none` models the `ValueError` raised otherwise. -/
def parseFloat (l : List Char) : Option ℚ :=
  if l.all (fun c => isDigitC c || c = '.') && l.count '.' ≤ 1 && l.any isDigitC then
    let intPart := l.takeWhile (fun c => c ≠ '.')
    let frac := (l.dropWhile (fun c => c ≠ '.')).drop 1
    some ((digitsToNat intPart : ℚ) + (digitsToNat frac : ℚ) / (10 : ℚ) ^ frac.length)
  else none

/-- Remove the first `n` occurrences of `a`, as Python `str.replace(a, "", n)`. -/
def removeFirstN (a : Char) (n : ℕ) (l : List Char) : List Char :=
  match n, l with
  | 0, l => l
  | _, [] => []
  | n + 1, c :: t => if c = a then removeFirstN a n t else c :: removeFirstN a (n + 1) t

/-- The typo-correction pass applied to strike / price / stop tokens:
`replace(" ", "")`, then `replace(",", ".")`, then collapse multiple dots by
removing the first `count - 1` of them. -/
def fixTypos (l : List Char) : List Char :=
  let l := l.filter (fun c => c ≠ ' ')
  let l := l.map (fun c => if c = ',' then '.' else c)
  removeFirstN '.' (l.count '.' - 1) l

/-! ## Python numeric rounding on `ℚ` -/

/-- Python `int()` on a float: truncation toward zero. -/
def pyTrunc (x : ℚ) : ℤ := if 0 ≤ x then ⌊x⌋ else ⌈x⌉

/-- Round to the nearest integer, ties to even — Python's `round(x)` rule
(on the exact rational value). -/
def rndHalfEven (x : ℚ) : ℤ :=
  let f := ⌊x⌋
  let r := x - (f : ℚ)
  if r < 1/2 then f
  else if 1/2 < r then f + 1
  else if f % 2 = 0 then f else f + 1

/-- Python `round(x, 2)` on the exact rational value. -/
def pyRound2 (x : ℚ) : ℚ := (rndHalfEven (100 * x) : ℚ) / 100

theorem rndHalfEven_intCast (n : ℤ) : rndHalfEven (n : ℚ) = n := by
  simp [rndHalfEven]

theorem rndHalfEven_mono {x y : ℚ} (h : x ≤ y) : rndHalfEven x ≤ rndHalfEven y := by
  unfold rndHalfEven
  rcases lt_or_le ⌊x⌋ ⌊y⌋ with hf | hf
  · have h1 : ⌊x⌋ + 1 ≤ ⌊y⌋ := hf
    have hx : (if x - (⌊x⌋ : ℚ) < 1/2 then ⌊x⌋
        else if 1/2 < x - (⌊x⌋ : ℚ) then ⌊x⌋ + 1
        else if ⌊x⌋ % 2 = 0 then ⌊x⌋ else ⌊x⌋ + 1) ≤ ⌊x⌋ + 1 := by
      split <;> [omega; skip]
      split <;> [omega; skip]
      split <;> omega
    have hy : (⌊y⌋ : ℤ) ≤ (if y - (⌊y⌋ : ℚ) < 1/2 then ⌊y⌋
        else if 1/2 < y - (⌊y⌋ : ℚ) then ⌊y⌋ + 1
        else if ⌊y⌋ % 2 = 0 then ⌊y⌋ else ⌊y⌋ + 1) := by
      split <;> [omega; skip]
      split <;> [omega; skip]
      split <;> omega
    simp only at hx hy ⊢
    omega
  · have hfe : ⌊y⌋ = ⌊x⌋ := le_antisymm hf (Int.floor_le_floor h)
    rw [hfe]
    have hr : x - (⌊x⌋ : ℚ) ≤ y - (⌊x⌋ : ℚ) := by linarith
    rcases lt_trichotomy (x - (⌊x⌋ : ℚ)) (1/2) with h1 | h1 | h1
    · simp only [if_pos h1]
      split <;> [omega; skip]
      split <;> [omega; skip]
      split <;> omega
    · have hx2 : ¬ (x - (⌊x⌋ : ℚ) < 1/2) := by rw [h1]; exact lt_irrefl _
      have hx3 : ¬ ((1:ℚ)/2 < x - (⌊x⌋ : ℚ)) := by rw [h1]; exact lt_irrefl _
      simp only [if_neg hx2, if_neg hx3]
      rcases lt_or_le (y - (⌊x⌋ : ℚ)) (1/2) with h2 | h2
      · exact absurd (lt_of_le_of_lt (h1 ▸ hr) h2) (lt_irrefl _)
      · rcases eq_or_lt_of_le h2 with h3 | h3
        · have hy2 : ¬ (y - (⌊x⌋ : ℚ) < 1/2) := by rw [← h3]; exact lt_irrefl _
          have hy3 : ¬ ((1:ℚ)/2 < y - (⌊x⌋ : ℚ)) := by rw [← h3]; exact lt_irrefl _
          simp only [if_neg hy2, if_neg hy3]
          split <;> omega
        · have hy2 : ¬ (y - (⌊x⌋ : ℚ) < 1/2) := not_lt.mpr (le_of_lt h3)
          simp only [if_neg hy2, if_pos h3]
          split <;> omega
    · have hx2 : ¬ (x - (⌊x⌋ : ℚ) < 1/2) := not_lt.mpr (le_of_lt h1)
      have hy1 : (1:ℚ)/2 < y - (⌊x⌋ : ℚ) := lt_of_lt_of_le h1 hr
      have hy2 : ¬ (y - (⌊x⌋ : ℚ) < 1/2) := not_lt.mpr (le_of_lt hy1)
      simp only [if_neg hx2, if_pos h1, if_neg hy2, if_pos hy1]
      exact le_refl _

theorem pyRound2_mono {x y : ℚ} (h : x ≤ y) : pyRound2 x ≤ pyRound2 y := by
  unfold pyRound2
  have := rndHalfEven_mono (x := 100 * x) (y := 100 * y) (by linarith)
  have h2 : ((rndHalfEven (100 * x) : ℚ)) ≤ ((rndHalfEven (100 * y) : ℚ)) := by
    exact_mod_cast this
  linarith

/-- A price with at most two decimal places is fixed by `pyRound2`. -/
theorem pyRound2_eq_self {x : ℚ} (h : ∃ k : ℤ, x = (k : ℚ) / 100) :
    pyRound2 x = x := by
  obtain ⟨k, rfl⟩ := h
  unfold pyRound2
  rw [show (100 : ℚ) * ((k : ℚ) / 100) = (k : ℚ) by ring, rndHalfEven_intCast]

/-! ## Dates

`datetime.date` is modelled as a Gregorian (year, month, day) triple; date
comparison is calendar order and `timedelta(days = n)` goes through the
standard days-from-civil / civil-from-days conversions. -/

structure PyDate where
  year : ℤ
  month : ℤ
  day : ℤ
deriving DecidableEq, Repr

/-- Serial day number of a civil date (days since 1970-01-01). -/
def daysFromCivil (d : PyDate) : ℤ :=
  let y := if d.month ≤ 2 then d.year - 1 else d.year
  let era := y.fdiv 400
  let yoe := y - era * 400
  let mp := if 2 < d.month then d.month - 3 else d.month + 9
  let doy := (153 * mp + 2).fdiv 5 + d.day - 1
  let doe := yoe * 365 + yoe.fdiv 4 - yoe.fdiv 100 + doy
  era * 146097 + doe - 719468

/-- Civil date of a serial day number (inverse of `daysFromCivil`). -/
def civilFromDays (z0 : ℤ) : PyDate :=
  let z := z0 + 719468
  let era := z.fdiv 146097
  let doe := z - era * 146097
  let yoe := (doe - doe.fdiv 1460 + doe.fdiv 36524 - doe.fdiv 146096).fdiv 365
  let y := yoe + era * 400
  let doy := doe - (365 * yoe + yoe.fdiv 4 - yoe.fdiv 100)
  let mp := (5 * doy + 2).fdiv 153
  let dd := doy - (153 * mp + 2).fdiv 5 + 1
  let m := if mp < 10 then mp + 3 else mp - 9
  ⟨if m ≤ 2 then y + 1 else y, m, dd⟩

/-- `date + timedelta(days = n)`. -/
def addDays (d : PyDate) (n : ℤ) : PyDate := civilFromDays (daysFromCivil d + n)

/-- Python `date.weekday()`: Monday = 0 … Sunday = 6
(1970-01-01 was a Thursday, weekday 3). -/
def pyWeekday (d : PyDate) : ℤ := (daysFromCivil d + 3) % 7

/-- Python date comparison `<` (calendar, i.e. lexicographic, order). -/
def dateLt (a b : PyDate) : Bool :=
  a.year < b.year || (a.year = b.year && (a.month < b.month ||
    (a.month = b.month && a.day < b.day)))

/-! ## Embedded regular-expression matchers

Each compiled filter of `TradeAlerts.__init__` becomes a `matchAt` function
(can the pattern match starting exactly here?) lifted to `re.search`
semantics by `searchWith`: try every start position from the left, return
the first hit as `(prefix, payload-with-matched-text-and-rest)`.  None of
the embedded patterns can match the empty string, so the final (end-of-text)
position never matches and is omitted from the scan. -/

/-- `re.search`: first position (left to right) where `matchAt` succeeds. -/
def searchWith (matchAt : List Char → Option α) : List Char → Option (List Char × α) :=
  go []
where
  go (pre : List Char) : List Char → Option (List Char × α)
    | [] => none
    | c :: rest =>
      match matchAt (c :: rest) with
      | some r => some (pre, r)
      | none => go (pre ++ [c]) rest

/-- `(?![A-Z]+:|[A-Z][a-z]+)[A-Z]+` at the current position.  The negative
lookahead denies a maximal uppercase run followed by `:` (only the full run
can be followed by a non-uppercase `:`), or an uppercase letter followed by
a lowercase letter. -/
def tickerMatchAt (l : List Char) : Option (List Char × List Char) :=
  match l with
  | [] => none
  | c :: rest =>
    if isUpperAZ c then
      let run := l.takeWhile isUpperAZ
      let after := l.dropWhile isUpperAZ
      let denyColon := after.head? = some ':'
      let denyCap := match rest.head? with
        | some c2 => isLowerAZ c2
        | none => false
      if denyColon || denyCap then none else some (run, after)
    else none

/-- The ticker filter `re.search`. -/
def tickerSearch : List Char → Option (List Char × List Char × List Char) :=
  searchWith tickerMatchAt

/-- `\d+[.,]+[\s]*\d+|[.,]+[\s]*\d+` at the current position (the decimal
alternatives shared by the strike, price and stop filters).  All pieces are
maximal runs over pairwise-disjoint character classes, so greedy matching
needs no backtracking. -/
def decMatchAt (l : List Char) : Option (List Char × List Char) :=
  let ds := l.takeWhile isDigitC
  let l1 := l.dropWhile isDigitC
  let seps := l1.takeWhile isSepC
  if seps = [] then none
  else
    let l2 := l1.dropWhile isSepC
    let sps := l2.takeWhile isPySpace
    let l3 := l2.dropWhile isPySpace
    let ds2 := l3.takeWhile isDigitC
    if ds2 = [] then none
    else some (ds ++ seps ++ sps ++ ds2, l3.dropWhile isDigitC)

/-- `(\d+[.,]+[\s]*\d+|[.,]+[\s]*\d+)|(\d+)` at the current position
(strike filter): the decimal group, else a bare digit run. -/
def strikeMatchAt (l : List Char) : Option (List Char × List Char) :=
  match decMatchAt l with
  | some r => some r
  | none =>
    match l.takeWhile isDigitC with
    | [] => none
    | ds => some (ds, l.dropWhile isDigitC)

/-- The strike filter `re.search`. -/
def strikeSearch : List Char → Option (List Char × List Char × List Char) :=
  searchWith strikeMatchAt

/-- The price filter `re.search` (decimal alternatives only). -/
def priceSearch : List Char → Option (List Char × List Char × List Char) :=
  searchWith decMatchAt

/-- `(?![A-Z]+:)(CALL|PUT|C|P)` with `re.IGNORECASE` at the current
position.  Under `IGNORECASE` the lookahead's `[A-Z]` matches any ASCII
letter, so it denies a maximal letter run directly followed by `:`. -/
def directionMatchAt (l : List Char) : Option (List Char × List Char) :=
  let run := l.takeWhile isAlphaAZ
  if run ≠ [] && (l.dropWhile isAlphaAZ).head? = some ':' then none
  else
    match ciToken "CALL".toList l with
    | some r => some r
    | none =>
      match ciToken "PUT".toList l with
      | some r => some r
      | none =>
        match ciToken "C".toList l with
        | some r => some r
        | none => ciToken "P".toList l

/-- The direction filter `re.search`. -/
def directionSearch : List Char → Option (List Char × List Char × List Char) :=
  searchWith directionMatchAt

/-- Which outer group of a multi-group filter matched, plus the matched
text and the rest of the input. -/
structure GMatch where
  group : ℕ
  text : List Char
  rest : List Char
deriving DecidableEq, Repr

/-- `\w+` (one or more word characters) at the current position. -/
def wordRun (l : List Char) : Option (List Char × List Char) :=
  match l.takeWhile isWordC with
  | [] => none
  | ws => some (ws, l.dropWhile isWordC)

/-- `\d+\/\d+` at the current position. -/
def fracMatchAt (l : List Char) : Option (List Char × List Char) :=
  let d1 := l.takeWhile isDigitC
  if d1 = [] then none
  else
    let l1 := l.dropWhile isDigitC
    match l1 with
    | '/' :: l2 =>
      let d2 := l2.takeWhile isDigitC
      if d2 = [] then none
      else some (d1 ++ '/' :: d2, l2.dropWhile isDigitC)
    | _ => none

/-- The month-name alternation `(Jan|Feb|Mar|Apr|May|Jun|Jul|Aug|Sep|Oct|Nov|Dec)`
(case-insensitive), in the order written. -/
def monthTokenAt (l : List Char) : Option (List Char × List Char) :=
  let names := ["Jan", "Feb", "Mar", "Apr", "May", "Jun",
                "Jul", "Aug", "Sep", "Oct", "Nov", "Dec"]
  names.foldl (fun acc n =>
    match acc with
    | some r => some r
    | none => ciToken n.toList l) none

/-- `(week\w+|\d+DTE|tomorrow|today)|(\d+\/\d+\/\d+|\d+\/\d+)|((Jan|…|Dec)\w+)`
with `re.IGNORECASE` at the current position (expiration-date filter),
trying the groups and their alternatives in written order. -/
def expMatchAt (l : List Char) : Option GMatch :=
  -- group 1: week\w+
  match ciToken "week".toList l with
  | some (m, r) =>
    match wordRun r with
    | some (w, r2) => some ⟨1, m ++ w, r2⟩
    | none => expMatchAtDTE l
  | none => expMatchAtDTE l
where
  /-- group 1 continued: `\d+DTE`. -/
  expMatchAtDTE (l : List Char) : Option GMatch :=
    let ds := l.takeWhile isDigitC
    match ds, ciToken "DTE".toList (l.dropWhile isDigitC) with
    | _ :: _, some (m, r) => some ⟨1, ds ++ m, r⟩
    | _, _ => expMatchAtTmrw l
  /-- group 1 continued: `tomorrow|today`; then group 2, then group 3. -/
  expMatchAtTmrw (l : List Char) : Option GMatch :=
    match ciToken "tomorrow".toList l with
    | some (m, r) => some ⟨1, m, r⟩
    | none =>
      match ciToken "today".toList l with
      | some (m, r) => some ⟨1, m, r⟩
      | none =>
        -- group 2: \d+/\d+/\d+ | \d+/\d+
        match fracMatchAt l with
        | some (m, r) =>
          match r with
          | '/' :: r2 =>
            let d3 := r2.takeWhile isDigitC
            if d3 = [] then some ⟨2, m, r⟩
            else some ⟨2, m ++ '/' :: d3, r2.dropWhile isDigitC⟩
          | _ => some ⟨2, m, r⟩
        | none =>
          -- group 3: month name followed by \w+
          match monthTokenAt l with
          | some (m, r) =>
            match wordRun r with
            | some (w, r2) => some ⟨3, m ++ w, r2⟩
            | none => none
          | none => none

/-- The expiration-date filter `re.search`. -/
def expSearch : List Char → Option (List Char × GMatch) :=
  searchWith expMatchAt

/-- `(\d+[.,]+[\s]*\d+|[.,]+[\s]*\d+)|(\d*%)` at the current position
(stop-loss filter): the decimal price group, else digits followed by `%`. -/
def stopMatchAt (l : List Char) : Option GMatch :=
  match decMatchAt l with
  | some (m, r) => some ⟨1, m, r⟩
  | none =>
    let ds := l.takeWhile isDigitC
    match l.dropWhile isDigitC with
    | '%' :: r => some ⟨2, ds ++ ['%'], r⟩
    | _ => none

/-- The stop-loss filter `re.search`. -/
def stopSearch : List Char → Option (List Char × GMatch) :=
  searchWith stopMatchAt

/-- `[(\W)?.*]day.\w+|scalp` with `re.IGNORECASE` at the current position
(trade-risk filter).  The leading character class consists of `\W` plus
characters that are themselves non-word, so it is exactly one non-word
character; `.` is any character except newline. -/
def riskMatchAt (l : List Char) : Option (List Char × List Char) :=
  (match l with
    | c :: r =>
      if isWordC c then none
      else
        match ciToken "day".toList r with
        | some (m, r2) =>
          match r2 with
          | a :: r3 =>
            if a = '\n' then none
            else
              match wordRun r3 with
              | some (w, r4) => some (c :: m ++ a :: w, r4)
              | none => none
          | [] => none
        | none => none
    | [] => none).orElse
  (fun _ => ciToken "scalp".toList l)

/-- The trade-risk filter `re.search`. -/
def riskSearch : List Char → Option (List Char × List Char × List Char) :=
  searchWith riskMatchAt

/-- The spelled-out numbers `NUMERIC_STRINGS = [ONE … NINE]`. -/
def NUMERIC_STRINGS : List String :=
  ["ONE", "TWO", "THREE", "FOUR", "FIVE", "SIX", "SEVEN", "EIGHT", "NINE"]

/-- One keyword of the sell-amount filter followed by `[.\w+|.\W+]` — a
character class covering every character — i.e. the keyword plus exactly
one arbitrary character. -/
def kwPlusAny (kw : String) (l : List Char) : Option (List Char × List Char) :=
  match ciToken kw.toList l with
  | some (m, a :: r) => some (m ++ [a], r)
  | _ => none

/-- The sell-amount filter
`(stop.|sl.|all.|out.|profit.|remaining.)|(another|most|half|some|las.|ONE|…|NINE)|(\d+[.,\/]\d+|\d+)`
(each `.` standing for the any-character class `[.\w+|.\W+]`),
with `re.IGNORECASE`, at the current position. -/
def sellMatchAt (l : List Char) : Option GMatch :=
  let g1 := ["stop", "sl", "all", "out", "profit", "remaining"].foldl
    (fun acc kw => match acc with
      | some r => some r
      | none => kwPlusAny kw l) none
  match g1 with
  | some (m, r) => some ⟨1, m, r⟩
  | none =>
    let g2 :=
      match ciToken "another".toList l with
      | some r => some r
      | none =>
        match ciToken "most".toList l with
        | some r => some r
        | none =>
          match ciToken "half".toList l with
          | some r => some r
          | none =>
            match ciToken "some".toList l with
            | some r => some r
            | none =>
              match kwPlusAny "las" l with
              | some r => some r
              | none =>
                NUMERIC_STRINGS.foldl (fun acc n =>
                  match acc with
                  | some r => some r
                  | none => ciToken n.toList l) none
    match g2 with
    | some (m, r) => some ⟨2, m, r⟩
    | none =>
      -- group 3: \d+[.,/]\d+ | \d+
      let d1 := l.takeWhile isDigitC
      if d1 = [] then none
      else
        match l.dropWhile isDigitC with
        | c :: r =>
          if c = '.' || c = ',' || c = '/' then
            let d2 := r.takeWhile isDigitC
            if d2 = [] then some ⟨3, d1, c :: r⟩
            else some ⟨3, d1 ++ c :: d2, r.dropWhile isDigitC⟩
          else some ⟨3, d1, c :: r⟩
        | [] => some ⟨3, d1, []⟩

/-- The sell-amount filter `re.search`. -/
def sellSearch : List Char → Option (List Char × GMatch) :=
  searchWith sellMatchAt

/-! ## Data model -/

/-- One entry of a channel's trade-tracker list: the Python code stores
`{ticker: {AlertTime, Strike, Direction, Price, ExpDate}}`;
the single-key dictionary is flattened into a record. -/
structure TrackedTrade where
  Ticker : String
  AlertTime : ℚ
  Strike : String
  Direction : String
  Price : ℚ
  ExpDate : PyDate
deriving DecidableEq, Repr

/-- Placeholder entry for out-of-range list reads (never used on reachable
paths; reachable indices are proved in range). -/
def dummyTrade : TrackedTrade := ⟨"", 0, "", "", 0, ⟨0, 0, 0⟩⟩

/-- The `trade_info` dictionary produced by `process_trade_alert`
(`Info` is flattened into `InfoType`/`InfoPercent`). -/
structure TradeInfo where
  Signal : String
  Ticker : String
  Strike : String
  Direction : String
  Price : ℚ
  ExpDate : PyDate
  StopLoss : ℚ
  InfoType : String
  InfoPercent : ℚ
deriving DecidableEq, Repr

/-- The freshly initialized `trade_info` dictionary (also the top-level
fields of `invalid_trade_info`, its shallow copy). -/
def initInfo (today : PyDate) : TradeInfo :=
  ⟨"", "", "", "", 0, today, 0, "", 0⟩

/-- A trade alert is accepted downstream iff its `Signal` field is truthy
(a non-empty string). -/
def TradeInfo.ok (t : TradeInfo) : Bool := t.Signal ≠ ""

/-- Sell-percent constants from `mt_globals.py`. -/
def SELL_ALL_PERCENT : ℚ := 1
def SELL_MOST_PERCENT : ℚ := 3/4
def SELL_HALF_PERCENT : ℚ := 1/2
def SELL_SOME_PERCENT : ℚ := 1/4
def SELL_ANOTHER_PERCENT : ℚ := 1/100

/-- Oracles for the external `dateutil.parser.parse` calls: the parsed
date of a numeric date token (group 2 of the expiration filter) and the
parsed month number of a month-name token (group 3).  Their failure modes
are those of an external library and are outside the embedded source. -/
structure DateOracles where
  parseDateTok : String → PyDate
  parseMonthTok : String → ℤ

/-! ## `process_trade_alert` — BTO (Buy To Open) branch -/

/-- Ticker extraction stage: on a match, the ticker symbol and the message
with the match removed (`sub("", content, 1).strip()`). -/
def tickerStage (c : List Char) : Option (String × List Char) :=
  match tickerSearch c with
  | some (pre, m, post) => some (String.mk m, pyStrip (pre ++ post))
  | none => none

/-- Strike extraction stage: typo-corrected strike kept as a string
(`str(strike_found)`). -/
def strikeStage (c : List Char) : Option (String × List Char) :=
  match strikeSearch c with
  | some (pre, m, post) => some (String.mk (fixTypos m), pyStrip (pre ++ post))
  | none => none

/-- Direction extraction stage: lower-cased, single letters expanded. -/
def directionStage (c : List Char) : Option (String × List Char) :=
  match directionSearch c with
  | some (pre, m, post) =>
    let d := String.mk (lowerL m)
    let d := if d = "c" then "call" else if d = "p" then "put" else d
    some (d, pyStrip (pre ++ post))
  | none => none

/-- Result of a stage whose Python original can also raise
(`float(...)` on a token the typo pass did not clean). -/
inductive PriceRes where
  | notFound
  | crash
  | ok (p : ℚ) (rest : List Char)
deriving DecidableEq, Repr

/-- Price extraction stage: typo-corrected, `round(float(...), 2)`. -/
def priceStage (c : List Char) : PriceRes :=
  match priceSearch c with
  | none => .notFound
  | some (pre, m, post) =>
    match parseFloat (fixTypos m) with
    | none => .crash
    | some v => .ok (pyRound2 v) (pyStrip (pre ++ post))

/-- `int(re.match("\d+", s).group())`: value of the leading digit run. -/
def leadingNat (l : List Char) : ℕ := digitsToNat (l.takeWhile isDigitC)

/-- Expiration-date stage.  Group 1 keywords are checked by substring
containment in the written order (`WEEK`, then `TOMORROW`, then `DTE`);
group 2 goes to the `dateutil` parse oracle; group 3 becomes the first of
the parsed month in the current year; no match leaves today's date and the
content untouched. -/
def expStage (today : PyDate) (od : DateOracles) (c : List Char) : PyDate × List Char :=
  match expSearch c with
  | none => (today, c)
  | some (pre, g) =>
    let d :=
      if g.group = 1 then
        if containsSub "WEEK".toList (upperL g.text) then
          addDays today (((4 - pyWeekday today) + 7) % 7)
        else if containsSub "TOMORROW".toList (upperL g.text) then
          addDays today 1
        else if containsSub "DTE".toList (upperL g.text) then
          addDays today (leadingNat g.text)
        else today
      else if g.group = 2 then od.parseDateTok (String.mk g.text)
      else ⟨today.year, od.parseMonthTok (String.mk g.text), 1⟩
    (d, pyStrip (pre ++ g.rest))

/-- `(ExpDate.year - today.year) * 12 + (ExpDate.month - today.month)`. -/
def monthsTillExp (expd today : PyDate) : ℤ :=
  (expd.year - today.year) * 12 + (expd.month - today.month)

/-- The computed default stop-loss price: the default fraction grows by
`0.0727` per month until expiration (when more than one month out), capped
at 100%. -/
def defaultStopLoss (dSL price : ℚ) (expd today : PyDate) : ℚ :=
  let m := monthsTillExp expd today
  let slp :=
    if 1 < m then
      let s := dSL + (m : ℚ) * (727/10000)
      if 1 < s then 1 else s
    else dSL
  pyRound2 (price - price * slp)

/-- Stop-loss stage of a BTO alert.  An explicit stop price that implies
less than the configured default fraction is replaced by the computed
default; a `\d*%` token gives a percent-derived price; otherwise the
computed default is used (content untouched).  `none` models the
`ZeroDivisionError` on a zero parsed price and the `ValueError` of
`float`/`int` on uncleanable tokens. -/
def stopStage (dSL price : ℚ) (expd today : PyDate) (c : List Char) :
    Option (ℚ × List Char) :=
  match stopSearch c with
  | none => some (defaultStopLoss dSL price expd today, c)
  | some (pre, g) =>
    if g.group = 1 then
      match parseFloat (fixTypos g.text) with
      | none => none
      | some v =>
        let sp := pyRound2 v
        if price = 0 then none
        else
          let sp := if 1 - sp / price < dSL then pyRound2 (price - price * dSL) else sp
          some (sp, pyStrip (pre ++ g.rest))
    else
      let digits := g.text.filter (fun ch => ch ≠ '%')
      if digits = [] then none
      else
        let pct := (digitsToNat digits : ℚ) / 100
        some (pyRound2 (price - price * pct), pyStrip (pre ++ g.rest))

/-- Trade-risk stage: a day-trade/scalp keyword keeps the full investment
percent, otherwise it is reduced by 30%. -/
def riskStage (invest : ℚ) (c : List Char) : String × ℚ :=
  if (riskSearch c).isSome then ("DAYTRADE/SCALP", invest)
  else ("RISKY/SWING", invest - invest * (3/10))

/-- The BTO branch of `process_trade_alert`: the ordered
ticker → strike → direction → price → expiration pipeline, the tracker
append (which happens before the stop-loss stage), then stop-loss and
trade-risk.  `none` models an uncaught exception; a failed required stage
returns the invalid record with the tracker unchanged. -/
def processBTO (signal : String) (dSL invest : ℚ) (today : PyDate) (now : ℚ)
    (od : DateOracles) (content : List Char) (tracker : List TrackedTrade) :
    Option (TradeInfo × List TrackedTrade) :=
  match tickerStage content with
  | none => some (initInfo today, tracker)
  | some (tkr, c1) =>
  match strikeStage c1 with
  | none => some (initInfo today, tracker)
  | some (stk, c2) =>
  match directionStage c2 with
  | none => some (initInfo today, tracker)
  | some (dir, c3) =>
  match priceStage c3 with
  | .notFound => some (initInfo today, tracker)
  | .crash => none
  | .ok p c4 =>
    let (expd, c5) := expStage today od c4
    let tracker' := tracker ++ [⟨tkr, now, stk, dir, p, expd⟩]
    match stopStage dSL p expd today c5 with
    | none => none
    | some (sl, c6) =>
      let (ty, pct) := riskStage invest c6
      some (⟨signal, tkr, stk, dir, p, expd, sl, ty, pct⟩, tracker')

/-! ## `process_trade_alert` — STC (Sell To Close) branch -/

/-- Result of `find_trade_match`, as the index of the matched tracker
entry.  `.crash` models the single-entry "stopped out" branch, which pops
the entry and makes the caller's subsequent `.index(trade_match)` raise
(unreachable from `process_trade_alert`, whose guard excludes `STOP`
tickers before calling). -/
inductive FindRes where
  | notFound
  | crash
  | found (i : ℕ)
deriving DecidableEq, Repr

/-- Python `max` over a nonempty float list (`0` for the empty list, which
the callers exclude). -/
def maxTimes : List ℚ → ℚ
  | [] => 0
  | x :: xs => xs.foldl max x

/-- Index of the most recently opened trade: `max(alert_times)` followed by
the first entry attaining it. -/
def mostRecentIdx (l : List TrackedTrade) : ℕ :=
  (l.findIdx? (fun e => decide (e.AlertTime = maxTimes (l.map (·.AlertTime))))).getD 0

/-- First-occurrence deduplication of the tracker's ticker keys.  Models
`list(set().union(*(trade.keys() …)))`; Python's set iteration order is
unspecified, the embedding fixes first-occurrence order. -/
def dedupTickers (l : List String) : List String :=
  l.foldl (fun acc t => if t ∈ acc then acc else acc ++ [t]) []

/-- `find_trade_match`, returning the index of the matched entry: exact
ticker matches (most recent on ties), else fuzzy matches via the
`fuzz.ratio ≥ 80` oracle, else — for `STOP` pseudo-tickers only — the most
recent trade overall (popping when only one is tracked). -/
def findTradeMatchIdx (t : String) (fz : String → String → ℕ)
    (l : List TrackedTrade) : FindRes :=
  let matching := l.filter (fun e => decide (e.Ticker = t))
  if matching.length ≠ 0 then
    if 1 < matching.length then
      .found ((l.findIdx? (fun e => decide (e.Ticker = t ∧
        e.AlertTime = maxTimes (matching.map (·.AlertTime))))).getD 0)
    else
      .found ((l.findIdx? (fun e => decide (e.Ticker = t))).getD 0)
  else if l.length ≠ 0 then
    match (dedupTickers (l.map (·.Ticker))).find?
        (fun tk => decide (80 ≤ fz (String.mk (upperL t.toList)) (String.mk (upperL tk.toList)))) with
    | some tk =>
      let m2 := l.filter (fun e => decide (e.Ticker = tk))
      if m2.length ≠ 0 then
        if 1 < m2.length then
          .found ((l.findIdx? (fun e => decide (e.Ticker = tk ∧
            e.AlertTime = maxTimes (m2.map (·.AlertTime))))).getD 0)
        else
          .found ((l.findIdx? (fun e => decide (e.Ticker = tk))).getD 0)
      else .notFound
    | none =>
      if containsSub "STOP".toList (upperL t.toList) then
        if 1 < l.length then .found (mostRecentIdx l)
        else .crash
      else .notFound
  else .notFound

/-- Result of the STC preparation stages (everything before the sell-amount
classifier): an early invalid return, an uncaught exception, or the
`trade_info` so far together with the remaining content, the matched
entry's index and the tracker with that entry's `AlertTime` refreshed. -/
inductive PrepResult where
  | bad
  | crash
  | good (info : TradeInfo) (content : List Char) (idx : ℕ)
      (tracker : List TrackedTrade)
deriving DecidableEq, Repr

/-- The `EVA`-author content rewriting of the STC branch: remove the first
strike, direction and expiration-date matches (each followed by a strip);
other authors leave the content untouched. -/
def stcEvaSub (author : String) (c0 : List Char) : List Char :=
  if containsSub "EVA".toList (upperL author.toList) then
    let cA := pyStrip (match strikeSearch c0 with
      | some (pre, _, post) => pre ++ post
      | none => c0)
    let cB := pyStrip (match directionSearch cA with
      | some (pre, _, post) => pre ++ post
      | none => cA)
    pyStrip (match expSearch cB with
      | some (pre, g) => pre ++ g.rest
      | none => cB)
  else c0

/-- The STC price resolution on content `c1` for matched entry `e`:
break-even text adopts the tracked entry's price (removing any price match
from the content); otherwise a found price token is typo-corrected and
parsed (`none` models the `float` `ValueError`); no token leaves the
initial price `0.0`. -/
def stcPriceRes (e : TrackedTrade) (c1 : List Char) : Option (ℚ × List Char) :=
  if containsSub "AT EVEN".toList (upperL c1) ||
     containsSub "AT BREAK EVEN".toList (upperL c1) then
    some (e.Price, pyStrip (match priceSearch c1 with
      | some (pre, _, post) => pre ++ post
      | none => c1))
  else
    match priceSearch c1 with
    | some (pre, m, post) =>
      (parseFloat (fixTypos m)).map (fun v => (pyRound2 v, pyStrip (pre ++ post)))
    | none => some (0, c1)

/-- STC stages after a tracker entry has been matched: the `EVA`-author
subs, break-even or parsed price, and the `AlertTime` refresh of the
matched entry (the Python `.index` round trip is a value-level no-op on the
same object). -/
def stcFields (signal author : String) (c0 : List Char) (now : ℚ)
    (l : List TrackedTrade) (i : ℕ) : PrepResult :=
  let e := l.getD i dummyTrade
  match stcPriceRes e (stcEvaSub author c0) with
  | none => .crash
  | some (p, c2) =>
    .good ⟨signal, e.Ticker, e.Strike, e.Direction, p, e.ExpDate, 0, "", 0⟩
      c2 i (l.set i { e with AlertTime := now })

/-- STC preparation: ticker resolution.  A ticker that is not `STOP` and
sits in the first 75% of the message is matched against the tracker (with
the match removed from the content); otherwise the most recently opened
trade is used with the content untouched. -/
def stcPrepare (signal author : String) (content : List Char) (now : ℚ)
    (fz : String → String → ℕ) (l : List TrackedTrade) : PrepResult :=
  let mostRecent : PrepResult :=
    if l.length ≠ 0 then stcFields signal author content now l (mostRecentIdx l)
    else .bad
  match tickerSearch content with
  | some (pre, m, post) =>
    if ¬ containsSub "STOP".toList m &&
       decide ((pre.length : ℚ) / (content.length : ℚ) < 3/4) then
      match findTradeMatchIdx (String.mk m) fz l with
      | .notFound => .bad
      | .crash => .crash
      | .found i => stcFields signal author (pyStrip (pre ++ post)) now l i
    else mostRecent
  | none => mostRecent

/-- The sell-amount classifier: group 1 keywords mean all out; group 2
words map to the configured fractions (spelled-out numbers to percents);
group 3 numeric tokens are cleaned, fraction tokens with degenerate parts
corrected, and converted; no match defaults to all out. -/
def classifySell (r : Option (List Char × GMatch)) : String × ℚ :=
  match r with
  | none => ("ALL OUT", SELL_ALL_PERCENT)
  | some (_, g) =>
    if g.group = 1 then ("ALL OUT", SELL_ALL_PERCENT)
    else if g.group = 2 then
      let up := String.mk (upperL g.text)
      match NUMERIC_STRINGS.findIdx? (fun n => decide (n = up)) with
      | some k => ("SPECIFIC", pyRound2 (((k + 1 : ℕ) : ℚ) / 100))
      | none =>
        if containsSub "MOST".toList (upperL g.text) then ("MOST", SELL_MOST_PERCENT)
        else if containsSub "HALF".toList (upperL g.text) then ("HALF", SELL_HALF_PERCENT)
        else if containsSub "SOME".toList (upperL g.text) then ("SOME", SELL_SOME_PERCENT)
        else if containsSub "ANOTHER".toList (upperL g.text) then ("SINGLE", SELL_ANOTHER_PERCENT)
        else ("ALL OUT", SELL_ALL_PERCENT)
    else
      let sv := pyStrip (g.text.map (fun ch =>
        if ¬ (isWordC ch || isPySpace ch || ch = '/') then '/' else ch))
      if containsSub "/".toList sv then
        let num : ℤ := digitsToNat (sv.takeWhile (fun ch => ch ≠ '/'))
        let den : ℤ := digitsToNat ((sv.dropWhile (fun ch => ch ≠ '/')).drop 1)
        let nd : ℤ × ℤ :=
          if den < 1 ∧ 0 < num then (num, num + rndHalfEven (((num : ℚ) - 1) / 2))
          else if num < 1 ∧ 0 < den then (den - rndHalfEven (((den : ℚ) - 1) / 2), den)
          else if num < 1 ∧ den < 1 then (1, 2)
          else (num, den)
        ("FRACTIONAL", pyRound2 ((nd.1 : ℚ) / (nd.2 : ℚ)))
      else ("SPECIFIC", pyRound2 ((digitsToNat sv : ℚ) / 100))

/-- The predicate of the "ALL OUT" removal: same ticker, strike, direction
and expiration date as the matched trade. -/
def removePred (info : TradeInfo) (e : TrackedTrade) : Bool :=
  decide (e.Ticker = info.Ticker ∧ e.Strike = info.Strike ∧
    e.Direction = info.Direction ∧ e.ExpDate = info.ExpDate)

/-- The STC branch of `process_trade_alert`: preparation, sell-amount
classification, and removal of the matched trade when the type is
`ALL OUT`. -/
def processSTC (signal author : String) (content : List Char) (today : PyDate)
    (now : ℚ) (fz : String → String → ℕ) (l : List TrackedTrade) :
    Option (TradeInfo × List TrackedTrade) :=
  match stcPrepare signal author content now fz l with
  | .bad => some (initInfo today, l)
  | .crash => none
  | .good info c2 _ tr1 =>
    let tp := classifySell (sellSearch c2)
    let info := { info with InfoType := tp.1, InfoPercent := tp.2 }
    if tp.1 = "ALL OUT" then
      match tr1.findIdx? (removePred info) with
      | some j => some (info, tr1.eraseIdx j)
      | none => none
    else some (info, tr1)

/-! ## `process_trade_alert` — top level -/

/-- `process_trade_alert(signal, author, content)`, acting on one channel's
tracker list.  `VERTICAL`/`COMMON` alerts are rejected up front; the final
paper-trading `SPX` check replaces the result with the invalid record — but
`invalid_trade_info` is a shallow copy, so its nested `Info` dictionary is
the (by then mutated) one shared with `trade_info`. -/
def processTradeAlert (signal author : String) (content : List Char)
    (today : PyDate) (now : ℚ) (dSL invest : ℚ) (paper : Bool)
    (fz : String → String → ℕ) (od : DateOracles) (l : List TrackedTrade) :
    Option (TradeInfo × List TrackedTrade) :=
  if containsSub "VERTICAL".toList (upperL content) ||
     containsSub "COMMON".toList (upperL content) then
    some (initInfo today, l)
  else
    let r :=
      if pyUpper signal = "BTO" then processBTO signal dSL invest today now od content l
      else if pyUpper signal = "STC" then processSTC signal author content today now fz l
      else some (initInfo today, l)
    match r with
    | none => none
    | some (info, tr) =>
      if paper && decide (info.Ticker = "SPX") then
        some (⟨"", "", "", "", 0, today, 0, info.InfoType, info.InfoPercent⟩, tr)
      else some (info, tr)

/-! ## Trade-tracker persistence (`save_trade_tracker` / `load_trade_tracker`) -/

/-- `save_trade_tracker`: the channel's tracker list is pickled as-is; the
file contents are modelled by the list itself. -/
def saveTradeTracker (l : List TrackedTrade) : List TrackedTrade := l

/-- `load_trade_tracker` for one channel whose tracker file exists and
unpickles without error: trades whose expiration date is before today go to
the expired list, the rest would form the open list — but the statement
after the `try`/`except` block (`mt_alerts.py:1418`) runs unconditionally
and reinitializes the channel's open tracker to `[]`.  Returns
`(open list, expired list)`. -/
def loadTradeTracker (file : List TrackedTrade) (today : PyDate) :
    List TrackedTrade × List TrackedTrade :=
  let expired := file.filter (fun t => dateLt t.ExpDate today)
  let opened := file.filter (fun t => ¬ t ∈ expired)
  let _ := opened
  (([] : List TrackedTrade), expired)

/-! ## Stop-Loss Trailing Engine (`manage_stop_loss`) -/

/-- `glob.STOP_LOSS_ADJUSTMENT_PERCENT`. -/
def STOP_LOSS_ADJUSTMENT_PERCENT : ℚ := 1/10

/-- One tracked entry of `_stop_loss_tracker`
(the live branch's `Modified` flag is order-push bookkeeping and not part
of the claimed state). -/
structure SLState where
  StopLossPrice : ℚ
  StopLossPercent : ℚ
deriving DecidableEq, Repr

/-- Seeding a position's state from the computed default
(`mt_webull.py:1547`/`1588`). -/
def seedDefaultSL (price dSL : ℚ) : SLState :=
  ⟨pyRound2 (price - price * dSL), -dSL⟩

/-- Seeding a position's state from an existing protective order's stop
price (`mt_webull.py:1579`). -/
def seedOrderSL (orderStop dSL : ℚ) : SLState :=
  ⟨pyRound2 orderStop, -dSL⟩

/-- One ratchet pass of `manage_stop_loss` for a position with entry price
`price`, default fraction `dSL` and observed unrealized profit fraction
`pl` (identical formulas in the paper branch, `mt_webull.py:1627`–`1640`,
and the live branch, `1648`–`1668`): move to breakeven when profit first
reaches `[10%, 20%)` off the initial level, advance by one step when profit
exceeds the ratchet level by at least a step. -/
def ratchetStep (dSL price pl : ℚ) (s : SLState) : SLState :=
  if 1/10 ≤ pl ∧ pl < 1/5 ∧ s.StopLossPercent = -dSL then
    ⟨price, STOP_LOSS_ADJUSTMENT_PERCENT⟩
  else if 1/5 ≤ pl ∧ 1/10 ≤ pl - s.StopLossPercent then
    ⟨pyRound2 (price + price * s.StopLossPercent),
      s.StopLossPercent + STOP_LOSS_ADJUSTMENT_PERCENT⟩
  else s

/-- A sequence of scan passes with the given profit observations. -/
def runRatchet (dSL price : ℚ) : SLState → List ℚ → SLState
  | s, [] => s
  | s, p :: ps => runRatchet dSL price (ratchetStep dSL price p s) ps

/-! ## `get_quantity_sell` -/

/-- `get_quantity_sell` as a function of the held quantity and the close
fraction: fractions in `[0.01, 0.09]` are literal contract counts
(`int(percentage * 100)`); otherwise held × fraction, a result strictly
between 0 and 1 is bumped to one contract, else truncated; finally capped
at the held quantity. -/
def get_quantity_sell (quant_held : ℤ) (percentage : ℚ) : ℤ :=
  let quant : ℤ :=
    if 1/100 ≤ percentage ∧ percentage ≤ 9/100 then
      pyTrunc (percentage * 100)
    else
      let q : ℚ := (quant_held : ℚ) * percentage
      if 0 < q ∧ q < 1 then 1 else pyTrunc q
  if quant_held < quant then quant_held else quant

/-- The sell-sizing formula as the specification words it: held quantity ×
fraction rounded down, a value strictly between 0 and 1 rounded up to one
contract, capped at the held quantity.  (Spec-side definition, to be
compared with `get_quantity_sell`.) -/
def specSellQuantity (q : ℤ) (f : ℚ) : ℤ :=
  min q (if 0 < (q : ℚ) * f ∧ (q : ℚ) * f < 1 then 1 else ⌊(q : ℚ) * f⌋)

/-! ## Kill-switch dispatch (`mt_main.execute`, SMS queue items) -/

/-- `glob.SMS_SHUTDOWN_COMMANDS`. -/
def SMS_SHUTDOWN_COMMANDS : List String := ["END", "STOP", "QUIT"]

/-- Observable effect of dispatching one SMS queue item. -/
structure SmsStepResult where
  shutdown : Bool
  confirmSent : Bool
  errorSent : Bool
deriving DecidableEq, Repr

/-- The dispatcher's handling of one item from the kill-switch source
(`mt_main.py:170`–`188`): a confirmation is sent on receipt; an upper-cased
message in the shutdown vocabulary sets the shutdown event (leaving it set
if already set); anything else sends the invalid-command error message. -/
def dispatchSmsItem (msg : String) (shutdown : Bool) : SmsStepResult :=
  if SMS_SHUTDOWN_COMMANDS.contains (pyUpper msg) then
    ⟨true, true, false⟩
  else
    ⟨shutdown, true, true⟩

/-! ## `place_order` (decision path up to order submission) -/

/-- `glob.PRICE_INCREMENT`. -/
def PRICE_INCREMENT : ℚ := 1/20

/-- `round(round(p / PRICE_INCREMENT) * PRICE_INCREMENT, 2)`. -/
def tickAdjust (p : ℚ) : ℚ :=
  pyRound2 ((rndHalfEven (p / PRICE_INCREMENT) : ℚ) * PRICE_INCREMENT)

/-- Outcome of one `place_order` call: an uncaught exception, an early
return without submission, or a submission to the broker (a `WorkingOrder`
is enqueued only after a successful submission). -/
inductive OrderOutcome where
  | crashed
  | noOrder
  | submitted (limitPrice stopLoss : ℚ) (quantity : ℤ) (orderType : String)
deriving DecidableEq, Repr

/-- Did the call reach `place_options_order`? -/
def OrderOutcome.isSubmitted : OrderOutcome → Bool
  | submitted _ _ _ _ => true
  | _ => false

/-- The tail of `place_order`: tick adjustment of price and stop, sizing,
and the final validity check before submission. -/
def placeOrderFinish (quantityOf : ℚ → ℤ) (marketOpenNotDev : Bool)
    (price stopLoss : ℚ) (orderType : String) : OrderOutcome :=
  let price1 := if 0 < price ∧ price < 3 then tickAdjust price else price
  let stop1 := if 0 < stopLoss ∧ stopLoss < 3 then tickAdjust stopLoss else stopLoss
  let quantity := quantityOf price1
  if 0 < quantity ∧ 0 < price1 then
    if marketOpenNotDev then .submitted price1 stop1 quantity orderType
    else .noOrder
  else .noOrder

/-- The decision path of `place_order` (`mt_webull.py:614`–`754`).  Gateway
interactions are oracle inputs: `idFound` whether a contract id was
resolved, `sameDayExpAfterCutoff` the 12PM same-day-expiry rejection for
buys, `(quotePrice, useMarketPrice)` the result of `get_stock_quote`
(a failed fetch or missing bid/ask data yields price `0.0`), and
`quantityOf` the computed quantity as a function of the final order price
(`get_quantity_buy`/`get_quantity_sell`, whose internal exceptions are
caught and yield `0`).  `marketOpenNotDev` gates the actual submission.
`.crashed` models the uncaught `ZeroDivisionError` when the stop-loss
rescaling divides by a zero alert price. -/
def place_order (action : String) (idFound : Bool)
    (sameDayExpAfterCutoff : Bool) (quotePrice : ℚ) (useMarketPrice : Bool)
    (price0 stopLoss0 : ℚ) (quantityOf : ℚ → ℤ) (marketOpenNotDev : Bool)
    (orderType0 : String) : OrderOutcome :=
  if pyUpper action ≠ "BUY" ∧ pyUpper action ≠ "SELL" then .noOrder
  else if ¬ idFound then .noOrder
  else if action = "BUY" ∧ sameDayExpAfterCutoff then .noOrder
  else
    let orderType := if useMarketPrice then "MKT" else orderType0
    let adopt :=
      (pyUpper action = "BUY" ∧ (price0 = 0 ∨ quotePrice < price0)) ∨
      (pyUpper action = "SELL" ∧ (price0 = 0 ∨ price0 < quotePrice))
    if adopt then
      if quotePrice ≤ stopLoss0 then
        if price0 = 0 then .crashed
        else
          let slp := (price0 - stopLoss0) / price0
          placeOrderFinish quantityOf marketOpenNotDev quotePrice
            (quotePrice - quotePrice * slp) orderType
      else placeOrderFinish quantityOf marketOpenNotDev quotePrice stopLoss0 orderType
    else placeOrderFinish quantityOf marketOpenNotDev price0 stopLoss0 orderType

/-! ## Claim C1 — Trade-Tracker persistence round trip -/

/-- C1: the claim says saving and reloading the Trade Tracker yields the
same set of open positions (minus expired ones).  The code violates it: the
statement after the `try`/`except` block in `load_trade_tracker`
(`mt_alerts.py:1418`) runs unconditionally — also after a successful
unpickling — and reinitializes the channel's open tracker to the empty
list, so a save/load round trip always yields an empty open set; only the
expired split survives. -/
theorem load_after_save_loses_open_positions :
    ∀ (l : List TrackedTrade) (today : PyDate),
      (loadTradeTracker (saveTradeTracker l) today).1 = [] ∧
      (loadTradeTracker (saveTradeTracker l) today).2 =
        l.filter (fun t => dateLt t.ExpDate today) := by
  intro l today
  exact ⟨rfl, rfl⟩

/-! ## Claims C2 / C3 — Stop-Loss ratchet -/

/-- Invariant carried by default-seeded ratchet states: the stop price is
at most the (rounded) level the current ratchet step would produce, and —
while still at the initial level — at most the entry price. -/
def SLInv (dSL price : ℚ) (s : SLState) : Prop :=
  s.StopLossPrice ≤ pyRound2 (price + price * s.StopLossPercent) ∧
  (s.StopLossPercent = -dSL → s.StopLossPrice ≤ price)

theorem seedDefaultSL_inv {dSL price : ℚ} (hd : 0 ≤ dSL) (hp : 0 ≤ price)
    (h2 : pyRound2 price = price) : SLInv dSL price (seedDefaultSL price dSL) := by
  constructor
  · show pyRound2 (price - price * dSL) ≤ pyRound2 (price + price * -dSL)
    exact le_of_eq (by ring_nf)
  · intro _
    show pyRound2 (price - price * dSL) ≤ price
    calc pyRound2 (price - price * dSL) ≤ pyRound2 price :=
        pyRound2_mono (by nlinarith)
      _ = price := h2

theorem ratchetStep_mono_inv {dSL price : ℚ} (hd : 0 ≤ dSL) (hp : 0 ≤ price)
    (h2 : pyRound2 price = price) (pl : ℚ) {s : SLState}
    (hinv : SLInv dSL price s) :
    s.StopLossPrice ≤ (ratchetStep dSL price pl s).StopLossPrice ∧
    SLInv dSL price (ratchetStep dSL price pl s) := by
  have hstep : STOP_LOSS_ADJUSTMENT_PERCENT = 1/10 := rfl
  unfold ratchetStep
  split_ifs with hA hB
  · refine ⟨hinv.2 hA.2.2, ?_, ?_⟩
    · show price ≤ pyRound2 (price + price * STOP_LOSS_ADJUSTMENT_PERCENT)
      calc price = pyRound2 price := h2.symm
        _ ≤ _ := pyRound2_mono (by rw [hstep]; nlinarith)
    · intro h
      exfalso
      replace h : STOP_LOSS_ADJUSTMENT_PERCENT = -dSL := h
      rw [hstep] at h
      linarith
  · refine ⟨hinv.1, ?_, ?_⟩
    · show pyRound2 (price + price * s.StopLossPercent) ≤
        pyRound2 (price + price * (s.StopLossPercent + STOP_LOSS_ADJUSTMENT_PERCENT))
      apply pyRound2_mono
      rw [hstep]; nlinarith
    · intro h
      replace h : s.StopLossPercent + STOP_LOSS_ADJUSTMENT_PERCENT = -dSL := h
      rw [hstep] at h
      show pyRound2 (price + price * s.StopLossPercent) ≤ price
      have hpct : s.StopLossPercent ≤ 0 := by linarith
      calc pyRound2 (price + price * s.StopLossPercent) ≤ pyRound2 price :=
          pyRound2_mono (by nlinarith)
        _ = price := h2
  · exact ⟨le_refl _, hinv⟩

theorem runRatchet_inv {dSL price : ℚ} (hd : 0 ≤ dSL) (hp : 0 ≤ price)
    (h2 : pyRound2 price = price) (ps : List ℚ) {s : SLState}
    (hinv : SLInv dSL price s) : SLInv dSL price (runRatchet dSL price s ps) := by
  induction ps generalizing s with
  | nil => exact hinv
  | cons p ps ih =>
    exact ih ((ratchetStep_mono_inv hd hp h2 p hinv).2)

/-- C2 (amended): along any sequence of scan passes started from the
default-seeded state (nonnegative default fraction, entry price a
nonnegative two-decimal amount), `manage_stop_loss` never assigns a stop
price strictly lower than the current one on the next pass. -/
theorem ratchet_monotone_from_default_seed (dSL price : ℚ) (hd : 0 ≤ dSL)
    (hp : 0 ≤ price) (h2 : ∃ k : ℤ, price = (k : ℚ) / 100)
    (ps : List ℚ) (pl : ℚ) :
    (runRatchet dSL price (seedDefaultSL price dSL) ps).StopLossPrice ≤
    (ratchetStep dSL price pl
      (runRatchet dSL price (seedDefaultSL price dSL) ps)).StopLossPrice := by
  have h2' : pyRound2 price = price := pyRound2_eq_self h2
  exact (ratchetStep_mono_inv hd hp h2' pl
    (runRatchet_inv hd hp h2' ps (seedDefaultSL_inv hd hp h2'))).1

/-- Witness for the amended C2 theorem at a concrete instance. -/
theorem ratchet_monotone_from_default_seed_witness :
    (runRatchet (1/5) 1 (seedDefaultSL 1 (1/5)) [3/20]).StopLossPrice ≤
    (ratchetStep (1/5) 1 (9/20)
      (runRatchet (1/5) 1 (seedDefaultSL 1 (1/5)) [3/20])).StopLossPrice :=
  ratchet_monotone_from_default_seed (1/5) 1 (by norm_num) (by norm_num)
    ⟨100, by norm_num⟩ [3/20] (9/20)

/-- C2 (counterexample): a state seeded from an existing protective order's
stop price of `2.00` on a position with entry price `1.00` (default
fraction 20%) has its stop moved down to `1.00` by the breakeven ratchet at
a `+15%` profit observation — the claim's monotonicity fails for
order-seeded states. -/
theorem ratchet_decreases_from_order_seed :
    (ratchetStep (1/5) 1 (3/20) (seedOrderSL 2 (1/5))).StopLossPrice <
    (seedOrderSL 2 (1/5)).StopLossPrice := by
  have h1 : pyRound2 2 = 2 := by
    norm_num [pyRound2, rndHalfEven]
  have h2 : seedOrderSL 2 (1/5) = ⟨2, -(1/5)⟩ := by
    unfold seedOrderSL; rw [h1]
  rw [h2]
  unfold ratchetStep
  norm_num [STOP_LOSS_ADJUSTMENT_PERCENT]

/-- C3 (amended): one ratchet pass is idempotent for an unchanged profit
observation unless the profit is `≥ 20%` and still exceeds the current
ratchet level by at least two full steps (in which case the ratchet keeps
catching up one step per pass). -/
theorem ratchetStep_idempotent (dSL price pl : ℚ) (s : SLState) (hd : 0 ≤ dSL)
    (h : ¬ (1/5 ≤ pl ∧ 1/5 ≤ pl - s.StopLossPercent)) :
    ratchetStep dSL price pl (ratchetStep dSL price pl s) =
      ratchetStep dSL price pl s := by
  have hstep : STOP_LOSS_ADJUSTMENT_PERCENT = 1/10 := rfl
  by_cases hA : 1/10 ≤ pl ∧ pl < 1/5 ∧ s.StopLossPercent = -dSL
  · have e1 : ratchetStep dSL price pl s = ⟨price, STOP_LOSS_ADJUSTMENT_PERCENT⟩ :=
      by unfold ratchetStep; rw [if_pos hA]
    rw [e1]
    have hc1 : ¬ (1/10 ≤ pl ∧ pl < 1/5 ∧
        (SLState.mk price STOP_LOSS_ADJUSTMENT_PERCENT).StopLossPercent = -dSL) := by
      rintro ⟨_, _, hc⟩
      replace hc : STOP_LOSS_ADJUSTMENT_PERCENT = -dSL := hc
      rw [hstep] at hc
      linarith
    have hc2 : ¬ (1/5 ≤ pl ∧ 1/10 ≤ pl -
        (SLState.mk price STOP_LOSS_ADJUSTMENT_PERCENT).StopLossPercent) := by
      rintro ⟨h5, _⟩
      exact absurd h5 (not_le.mpr hA.2.1)
    conv_lhs => unfold ratchetStep
    rw [if_neg hc1, if_neg hc2]
  · by_cases hB : 1/5 ≤ pl ∧ 1/10 ≤ pl - s.StopLossPercent
    · have e1 : ratchetStep dSL price pl s =
          ⟨pyRound2 (price + price * s.StopLossPercent),
            s.StopLossPercent + STOP_LOSS_ADJUSTMENT_PERCENT⟩ := by
        unfold ratchetStep; rw [if_neg hA, if_pos hB]
      rw [e1]
      have hc1 : ¬ (1/10 ≤ pl ∧ pl < 1/5 ∧
          (SLState.mk (pyRound2 (price + price * s.StopLossPercent))
            (s.StopLossPercent + STOP_LOSS_ADJUSTMENT_PERCENT)).StopLossPercent = -dSL) := by
        rintro ⟨_, h5, _⟩
        exact absurd hB.1 (not_le.mpr h5)
      have hc2 : ¬ (1/5 ≤ pl ∧ 1/10 ≤ pl -
          (SLState.mk (pyRound2 (price + price * s.StopLossPercent))
            (s.StopLossPercent + STOP_LOSS_ADJUSTMENT_PERCENT)).StopLossPercent) := by
        rintro ⟨h5, hge⟩
        replace hge : 1/10 ≤ pl - (s.StopLossPercent + STOP_LOSS_ADJUSTMENT_PERCENT) := hge
        rw [hstep] at hge
        exact h ⟨h5, by linarith⟩
      conv_lhs => unfold ratchetStep
      rw [if_neg hc1, if_neg hc2]
    · have e1 : ratchetStep dSL price pl s = s := by
        unfold ratchetStep; rw [if_neg hA, if_neg hB]
      rw [e1]
      exact e1

/-- Witness for the amended C3 theorem at a concrete instance. -/
theorem ratchetStep_idempotent_witness :
    ratchetStep (1/5) 1 (3/20) (ratchetStep (1/5) 1 (3/20) ⟨4/5, -(1/5)⟩) =
      ratchetStep (1/5) 1 (3/20) ⟨4/5, -(1/5)⟩ :=
  ratchetStep_idempotent (1/5) 1 (3/20) ⟨4/5, -(1/5)⟩ (by norm_num)
    (by norm_num)

/-- C3 (counterexample): with profit fixed at `+45%` and a fresh
default-level state (`stop 0.80`, level `-20%`, entry `1.00`), a second
ratchet pass with the same unchanged profit moves the state again
(`(0.80, -10%) → (0.90, 0%)`) — re-ratcheting with an unchanged profit
percentage does change `StopLossState`. -/
theorem ratchetStep_not_idempotent :
    ratchetStep (1/5) 1 (9/20) (ratchetStep (1/5) 1 (9/20) ⟨4/5, -(1/5)⟩) ≠
      ratchetStep (1/5) 1 (9/20) ⟨4/5, -(1/5)⟩ := by
  have e1 : ratchetStep (1/5) 1 (9/20) ⟨4/5, -(1/5)⟩ = ⟨4/5, -(1/10)⟩ := by
    unfold ratchetStep
    norm_num [STOP_LOSS_ADJUSTMENT_PERCENT, pyRound2, rndHalfEven]
  have e2 : ratchetStep (1/5) 1 (9/20) ⟨4/5, -(1/10)⟩ = ⟨9/10, 0⟩ := by
    unfold ratchetStep
    norm_num [STOP_LOSS_ADJUSTMENT_PERCENT, pyRound2, rndHalfEven]
  rw [e1, e2]
  intro hcon
  have := congrArg SLState.StopLossPrice hcon
  norm_num at this

/-! ## Claim C6 — sell-order sizing -/

/-- C6 (counterexample): with 20 contracts held and close fraction `0.05`,
the code sells `int(0.05 * 100) = 5` contracts (the `[0.01, 0.09]` range is
interpreted as a literal contract count), while the claimed formula
`⌊20 × 0.05⌋ = 1` gives one contract. -/
theorem sell_quantity_disagrees_with_spec_formula :
    get_quantity_sell 20 (1/20) = 5 ∧ specSellQuantity 20 (1/20) = 1 ∧
      get_quantity_sell 20 (1/20) ≠ specSellQuantity 20 (1/20) := by
  have h1 : get_quantity_sell 20 (1/20) = 5 := by
    unfold get_quantity_sell pyTrunc
    norm_num
  have h2 : specSellQuantity 20 (1/20) = 1 := by
    unfold specSellQuantity
    norm_num
  exact ⟨h1, h2, by rw [h1, h2]; norm_num⟩

/-- C6 (amended): for a nonnegative held quantity and a fraction in
`(0, 1]`, the computed sell quantity follows the claimed formula
(held × fraction floored, a value strictly between 0 and 1 bumped to one
contract, capped at the held quantity) — except for fractions in
`[0.01, 0.09]`, which are taken as a literal contract count
`⌊fraction × 100⌋`, likewise capped. -/
theorem sell_quantity_formula (q : ℤ) (f : ℚ) (hq : 0 ≤ q) (hf0 : 0 < f)
    (_hf1 : f ≤ 1) :
    get_quantity_sell q f =
      if 1/100 ≤ f ∧ f ≤ 9/100 then min q ⌊f * 100⌋
      else specSellQuantity q f := by
  have hqf : (0 : ℚ) ≤ (q : ℚ) * f := by positivity
  have ht1 : pyTrunc (f * 100) = ⌊f * 100⌋ := by
    unfold pyTrunc; rw [if_pos (by positivity)]
  have ht2 : pyTrunc ((q : ℚ) * f) = ⌊(q : ℚ) * f⌋ := by
    unfold pyTrunc; rw [if_pos hqf]
  unfold get_quantity_sell specSellQuantity
  dsimp only
  by_cases hr : (1 : ℚ)/100 ≤ f ∧ f ≤ 9/100
  · rw [if_pos hr, if_pos hr, ht1]
    split_ifs <;> omega
  · rw [if_neg hr, if_neg hr, ht2]
    split_ifs <;> omega

/-- Witness for the amended C6 theorem at a concrete instance. -/
theorem sell_quantity_formula_witness :
    get_quantity_sell 4 (1/2) =
      if (1 : ℚ)/100 ≤ 1/2 ∧ (1 : ℚ)/2 ≤ 9/100 then min 4 ⌊(1 : ℚ)/2 * 100⌋
      else specSellQuantity 4 (1/2) :=
  sell_quantity_formula 4 (1/2) (by norm_num) (by norm_num) (by norm_num)

/-! ## Claim C8 — kill-switch dispatch -/

/-- C8: dispatching one kill-switch (SMS) item sets the global shutdown
signal iff the upper-cased message is one of the fixed shutdown words
`END`/`STOP`/`QUIT`; any other message leaves the signal as it was and gets
an invalid-command error acknowledgment (a confirmation is sent for every
item). -/
theorem sms_dispatch_spec (msg : String) (shutdown : Bool) :
    ((dispatchSmsItem msg false).shutdown = true ↔
      pyUpper msg ∈ SMS_SHUTDOWN_COMMANDS) ∧
    (dispatchSmsItem msg shutdown).errorSent =
      ! SMS_SHUTDOWN_COMMANDS.contains (pyUpper msg) ∧
    ((! SMS_SHUTDOWN_COMMANDS.contains (pyUpper msg)) = true →
      (dispatchSmsItem msg shutdown).shutdown = shutdown) ∧
    (dispatchSmsItem msg shutdown).confirmSent = true := by
  unfold dispatchSmsItem
  cases h : SMS_SHUTDOWN_COMMANDS.contains (pyUpper msg) <;>
    simp_all [List.contains_eq_any_beq, List.any_beq, List.elem_iff]

/-- Witness for the C8 theorem at a concrete instance. -/
theorem sms_dispatch_spec_witness :
    ((dispatchSmsItem "stop" false).shutdown = true ↔
      pyUpper "stop" ∈ SMS_SHUTDOWN_COMMANDS) ∧
    (dispatchSmsItem "stop" false).errorSent =
      ! SMS_SHUTDOWN_COMMANDS.contains (pyUpper "stop") ∧
    ((! SMS_SHUTDOWN_COMMANDS.contains (pyUpper "stop")) = true →
      (dispatchSmsItem "stop" false).shutdown = false) ∧
    (dispatchSmsItem "stop" false).confirmSent = true :=
  sms_dispatch_spec "stop" false

/-! ## Claim C10 — no buy order on a failed quote -/

/-- C10: a Buy invocation of `place_order` whose live quote fetch failed or
returned no bid/ask data (`get_stock_quote` price `0.0`) never reaches
`place_options_order` — no order is submitted and hence no `WorkingOrder`
is enqueued — regardless of the contract-id resolution, the same-day
cutoff, the spread flag, the alert's reference price and stop, the sizing
function, and the market/developer gates. -/
theorem no_buy_order_on_zero_quote (idFound sameDay useMkt marketOpen : Bool)
    (price0 stopLoss0 : ℚ) (quantityOf : ℚ → ℤ) (orderType0 : String) :
    (place_order "BUY" idFound sameDay 0 useMkt price0 stopLoss0 quantityOf
      marketOpen orderType0).isSubmitted = false := by
  have hfin : ∀ (p sl : ℚ) (ot : String), p ≤ 0 →
      (placeOrderFinish quantityOf marketOpen p sl ot).isSubmitted = false := by
    intro p sl ot hp
    unfold placeOrderFinish
    have h1 : ¬ (0 < p ∧ p < 3) := by
      rintro ⟨h, _⟩; linarith
    simp only [if_neg h1]
    have h2 : ¬ (0 < quantityOf p ∧ 0 < p) := by
      rintro ⟨_, h⟩; linarith
    simp only [if_neg h2, OrderOutcome.isSubmitted]
  unfold place_order
  dsimp only
  split_ifs with h1 h2 h3 h4 h5 h6
  all_goals try rfl
  all_goals try exact hfin _ _ _ (le_refl 0)
  -- remaining: the quote was not adopted, so the reference price is negative
  all_goals
    rcases lt_trichotomy price0 0 with hp | hp | hp
    · exact hfin _ _ _ (le_of_lt hp)
    · exact absurd (Or.inl ⟨by decide, Or.inl hp⟩) h4
    · exact absurd (Or.inl ⟨by decide, Or.inr hp⟩) h4

/-! ## Helper lemmas about the STC pipeline -/

theorem pyRound2_int_div_100 (n : ℤ) : pyRound2 ((n : ℚ) / 100) = (n : ℚ) / 100 :=
  pyRound2_eq_self ⟨n, rfl⟩

theorem stcFields_good {sig auth : String} {c0 : List Char} {now : ℚ}
    {l : List TrackedTrade} {i : ℕ} {info : TradeInfo} {c2 : List Char}
    {j : ℕ} {tr1 : List TrackedTrade}
    (h : stcFields sig auth c0 now l i = .good info c2 j tr1) :
    j = i ∧ tr1 = l.set i { l.getD i dummyTrade with AlertTime := now } := by
  unfold stcFields at h
  dsimp only at h
  rcases hm : stcPriceRes (l.getD i dummyTrade) (stcEvaSub auth c0) with _ | ⟨p, c⟩ <;>
    rw [hm] at h
  · exact absurd h (by simp)
  · injection h with h1 h2 h3 h4
    exact ⟨h3.symm, h4.symm⟩

theorem stcPrepare_good {sig auth : String} {content : List Char} {now : ℚ}
    {fz : String → String → ℕ} {l : List TrackedTrade} {info : TradeInfo}
    {c2 : List Char} {i : ℕ} {tr1 : List TrackedTrade}
    (h : stcPrepare sig auth content now fz l = .good info c2 i tr1) :
    tr1 = l.set i { l.getD i dummyTrade with AlertTime := now } := by
  unfold stcPrepare at h
  dsimp only at h
  split at h
  · split at h
    · split at h
      · exact absurd h (by simp)
      · exact absurd h (by simp)
      · obtain ⟨he, hset⟩ := stcFields_good h
        exact he ▸ hset
    · split at h
      · obtain ⟨he, hset⟩ := stcFields_good h
        exact he ▸ hset
      · exact absurd h (by simp)
  · split at h
    · obtain ⟨he, hset⟩ := stcFields_good h
      exact he ▸ hset
    · exact absurd h (by simp)

theorem searchWith_go_some {α : Type} {f : List Char → Option α} {pre0 : List Char}
    {l : List Char} {pre : List Char} {a : α}
    (h : searchWith.go f pre0 l = some (pre, a)) : ∃ t : List Char, f t = some a := by
  induction l generalizing pre0 with
  | nil => exact absurd h (by simp [searchWith.go])
  | cons c rest ih =>
    rw [searchWith.go] at h
    rcases hm : f (c :: rest) with _ | r <;> rw [hm] at h
    · exact ih h
    · injection h with h1
      injection h1 with h2 h3
      exact ⟨c :: rest, h3 ▸ hm⟩

/-- Any match produced by `re.search` comes from the position matcher on
some suffix of the text. -/
theorem searchWith_some {α : Type} {f : List Char → Option α} {l : List Char}
    {pre : List Char} {a : α} (h : searchWith f l = some (pre, a)) :
    ∃ t : List Char, f t = some a :=
  searchWith_go_some h

/-- The sell-amount matcher only produces groups 1, 2 and 3. -/
theorem sellMatchAt_group {l : List Char} {g : GMatch}
    (h : sellMatchAt l = some g) : g.group = 1 ∨ g.group = 2 ∨ g.group = 3 := by
  unfold sellMatchAt at h
  dsimp only at h
  repeat' split at h
  all_goals
    first
    | (injection h with h1
       exact Or.inl (congrArg GMatch.group h1.symm))
    | (injection h with h1
       exact Or.inr (Or.inl (congrArg GMatch.group h1.symm)))
    | (injection h with h1
       exact Or.inr (Or.inr (congrArg GMatch.group h1.symm)))
    | exact Option.noConfusion h

/-- Any sell-amount search hit has group 1, 2 or 3. -/
theorem sellSearch_group {l pre : List Char} {g : GMatch}
    (h : sellSearch l = some (pre, g)) : g.group = 1 ∨ g.group = 2 ∨ g.group = 3 := by
  obtain ⟨t, ht⟩ := searchWith_some h
  exact sellMatchAt_group ht

/-- The sell-amount classifier stays in `(0, 1]` when the match (if any) is
not a group-3 numeric token. -/
theorem classifySell_range (r : Option (List Char × GMatch))
    (hr : ∀ pre g, r = some (pre, g) → g.group = 1 ∨ g.group = 2) :
    0 < (classifySell r).2 ∧ (classifySell r).2 ≤ 1 := by
  rcases r with _ | ⟨pre, g⟩
  · exact ⟨by norm_num [classifySell, SELL_ALL_PERCENT],
      by norm_num [classifySell, SELL_ALL_PERCENT]⟩
  · unfold classifySell
    dsimp only
    by_cases hg1 : g.group = 1
    · rw [if_pos hg1]
      exact ⟨by norm_num [SELL_ALL_PERCENT], by norm_num [SELL_ALL_PERCENT]⟩
    · have h2 : g.group = 2 := (hr pre g rfl).resolve_left hg1
      rw [if_neg hg1, if_pos h2]
      rcases hk : NUMERIC_STRINGS.findIdx?
          (fun n => decide (n = String.mk (upperL g.text))) with _ | k
      · dsimp only
        split_ifs <;>
          exact ⟨by norm_num [SELL_MOST_PERCENT, SELL_HALF_PERCENT,
              SELL_SOME_PERCENT, SELL_ANOTHER_PERCENT, SELL_ALL_PERCENT],
            by norm_num [SELL_MOST_PERCENT, SELL_HALF_PERCENT,
              SELL_SOME_PERCENT, SELL_ANOTHER_PERCENT, SELL_ALL_PERCENT]⟩
      · dsimp only
        have hklt : k < NUMERIC_STRINGS.length :=
          (List.findIdx?_eq_some_iff_findIdx_eq.mp hk).1
        have hk9 : k < 9 := by
          simpa [NUMERIC_STRINGS] using hklt
        have he : pyRound2 (((k + 1 : ℕ) : ℚ) / 100) = ((k + 1 : ℕ) : ℚ) / 100 := by
          have h100 := pyRound2_int_div_100 ((k : ℤ) + 1)
          push_cast at h100 ⊢
          exact h100
        rw [he]
        constructor
        · positivity
        · rw [div_le_one (by norm_num)]
          have hb : (k + 1 : ℕ) ≤ 100 := by omega
          exact_mod_cast hb

/-- `stcPrepare` when a non-`STOP` ticker is found in the first 75% of the
message: the tracker is searched for it, on the content with the ticker
match removed. -/
theorem stcPrepare_with_ticker {sig auth : String} {content : List Char}
    {now : ℚ} {fz : String → String → ℕ} {l : List TrackedTrade}
    {pre m post : List Char}
    (ht : tickerSearch content = some (pre, m, post))
    (hstop : containsSub "STOP".toList m = false)
    (hlen : (pre.length : ℚ) / (content.length : ℚ) < 3/4) :
    stcPrepare sig auth content now fz l =
      match findTradeMatchIdx (String.mk m) fz l with
      | .notFound => .bad
      | .crash => .crash
      | .found i => stcFields sig auth (pyStrip (pre ++ post)) now l i := by
  unfold stcPrepare
  rw [ht]
  dsimp only
  rw [if_pos (show (¬ containsSub "STOP".toList m &&
      decide ((pre.length : ℚ) / (content.length : ℚ) < 3/4)) = true by
    rw [hstop]; simpa using hlen)]

/-! ## Shared concrete fixtures -/

/-- Fuzzy-ratio oracle reporting no similarity. -/
def fzZero : String → String → ℕ := fun _ _ => 0

/-- Fixed `dateutil` oracle for concrete runs. -/
def odFix : DateOracles := ⟨fun _ => ⟨2027, 1, 15⟩, fun _ => 1⟩

/-- One tracked SPY call position. -/
def spyTracked : TrackedTrade := ⟨"SPY", 1, "450", "call", 3, ⟨2026, 10, 16⟩⟩

/-- A concrete session date. -/
def oct12 : PyDate := ⟨2026, 10, 12⟩

/-! ## Claim C4 — removal of the matched position on Close -/

/-- C4 (counterexample): the Close alert `"SPY 100"` against one tracked
SPY position resolves to fraction `1.0` (`100` as a percent) and the
result is accepted (`Signal = "STC"`), yet the classification type is
`SPECIFIC`, not `ALL OUT`, so the matched position is NOT removed — the
tracker still holds it afterwards.  Removal is keyed on the `ALL OUT`
type, not on the fraction. -/
theorem close_fraction_one_not_removed :
    processTradeAlert "STC" "trader" ("SPY 100".toList) oct12 1001 (1/5) (1/10)
      false fzZero odFix [spyTracked] =
    some (⟨"STC", "SPY", "450", "call", 0, ⟨2026, 10, 16⟩, 0, "SPECIFIC", 1⟩,
      [⟨"SPY", 1001, "450", "call", 3, ⟨2026, 10, 16⟩⟩]) := by
  have hcls : classifySell (sellSearch ("100".toList)) = ("SPECIFIC", 1) := by
    have h2 : classifySell (sellSearch ("100".toList)) =
        ("SPECIFIC", pyRound2 (((100 : ℕ) : ℚ) / 100)) := by rfl
    rw [h2]
    have h3 : (((100 : ℕ) : ℚ)) / 100 = ((100 : ℤ) : ℚ) / 100 := by norm_num
    rw [h3, pyRound2_int_div_100]
    norm_num
  have ht : tickerSearch ("SPY 100".toList) =
      some ([], "SPY".toList, " 100".toList) := by decide
  have hstop : containsSub "STOP".toList ("SPY".toList) = false := by decide
  have hlen : ((([] : List Char)).length : ℚ) / ((("SPY 100".toList)).length : ℚ)
      < 3/4 := by
    rw [show ([] : List Char).length = 0 from rfl,
      show ("SPY 100".toList).length = 7 from by decide]
    norm_num
  have hprep : stcPrepare "STC" "trader" ("SPY 100".toList) 1001 fzZero
      [spyTracked] = .good ⟨"STC", "SPY", "450", "call", 0, ⟨2026, 10, 16⟩, 0, "", 0⟩
        ("100".toList) 0 [⟨"SPY", 1001, "450", "call", 3, ⟨2026, 10, 16⟩⟩] := by
    rw [stcPrepare_with_ticker ht hstop hlen]
    rw [show findTradeMatchIdx (String.mk ("SPY".toList)) fzZero [spyTracked] =
      .found 0 from by rfl]
    rfl
  have hstc : processSTC "STC" "trader" ("SPY 100".toList) oct12 1001 fzZero
      [spyTracked] =
      some (⟨"STC", "SPY", "450", "call", 0, ⟨2026, 10, 16⟩, 0, "SPECIFIC", 1⟩,
        [⟨"SPY", 1001, "450", "call", 3, ⟨2026, 10, 16⟩⟩]) := by
    unfold processSTC
    rw [hprep]
    dsimp only
    rw [hcls]
    dsimp only
    rw [if_neg (by decide : ¬ ("SPECIFIC" : String) = "ALL OUT")]
  unfold processTradeAlert
  rw [if_neg (by decide)]
  dsimp only
  rw [if_neg (by decide), if_pos (by decide : pyUpper "STC" = "STC")]
  rw [hstc]
  rfl

/-- C4 (amended): for a Close (STC) alert that `process_trade_alert` returns,
the matched position is removed from the tracker (the result list is one
shorter) if and only if the classified sell TYPE is `ALL OUT` — not if and
only if the resolved fraction is `1.0`. -/
theorem stc_removed_iff_all_out (signal author : String) (content : List Char)
    (today : PyDate) (now dSL invest : ℚ) (paper : Bool)
    (fz : String → String → ℕ) (od : DateOracles) (l : List TrackedTrade)
    (info : TradeInfo) (tr' : List TrackedTrade)
    (hsig : pyUpper signal = "STC")
    (h : processTradeAlert signal author content today now dSL invest paper
      fz od l = some (info, tr')) :
    (tr'.length + 1 = l.length ↔ info.InfoType = "ALL OUT") := by
  unfold processTradeAlert at h
  split at h
  · simp only [Option.some.injEq, Prod.mk.injEq] at h
    obtain ⟨h1, h2⟩ := h
    refine iff_of_false (by rw [← h2]; omega) ?_
    rw [← h1, show (initInfo today).InfoType = "" from rfl]
    decide
  · dsimp only at h
    rw [hsig] at h
    rw [if_neg (by decide)] at h
    have hdi : ∀ info0 : TradeInfo, ∀ tr0 : List TrackedTrade,
        processSTC signal author content today now fz l = some (info0, tr0) →
        (tr0.length + 1 = l.length ∧ info0.InfoType = "ALL OUT") ∨
        (tr0.length = l.length ∧ info0.InfoType ≠ "ALL OUT") := by
      intro info0 tr0 hstc
      unfold processSTC at hstc
      rcases hp : stcPrepare signal author content now fz l with _ | _ |
        ⟨i1, c2, i, tr1⟩ <;> rw [hp] at hstc
      · simp only [Option.some.injEq, Prod.mk.injEq] at hstc
        obtain ⟨h1, h2⟩ := hstc
        right
        refine ⟨by rw [← h2], ?_⟩
        rw [← h1, show (initInfo today).InfoType = "" from rfl]
        decide
      · exact Option.noConfusion hstc
      · have hset := stcPrepare_good hp
        have hlen1 : tr1.length = l.length := by
          rw [hset]; exact List.length_set l i _
        dsimp only at hstc
        by_cases hA : (classifySell (sellSearch c2)).1 = "ALL OUT"
        · rw [if_pos hA] at hstc
          split at hstc
          next j hj =>
            simp only [Option.some.injEq, Prod.mk.injEq] at hstc
            obtain ⟨h1, h2⟩ := hstc
            have hjlt : j < tr1.length :=
              (List.findIdx?_eq_some_iff_findIdx_eq.mp hj).1
            left
            refine ⟨?_, ?_⟩
            · rw [← h2, List.length_eraseIdx_of_lt hjlt]
              omega
            · rw [← h1]
              exact hA
          next hj => exact Option.noConfusion hstc
        · rw [if_neg hA] at hstc
          simp only [Option.some.injEq, Prod.mk.injEq] at hstc
          obtain ⟨h1, h2⟩ := hstc
          right
          refine ⟨by rw [← h2]; exact hlen1, ?_⟩
          rw [← h1]
          exact hA
    rcases hstc : processSTC signal author content today now fz l with _ |
      ⟨info0, tr0⟩ <;> rw [hstc] at h
    · exact Option.noConfusion h
    · dsimp only at h
      have hd := hdi info0 tr0 hstc
      split at h <;>
        simp only [Option.some.injEq, Prod.mk.injEq] at h <;>
        obtain ⟨h1, h2⟩ := h
      · rcases hd with ⟨hl, hty⟩ | ⟨hl, hty⟩
        · refine iff_of_true (by rw [← h2]; exact hl) ?_
          rw [← h1]
          exact hty
        · refine iff_of_false (by rw [← h2]; omega) ?_
          rw [← h1]
          exact hty
      · rcases hd with ⟨hl, hty⟩ | ⟨hl, hty⟩
        · refine iff_of_true (by rw [← h2]; exact hl) (by rw [← h1]; exact hty)
        · refine iff_of_false (by rw [← h2]; omega) (by rw [← h1]; exact hty)

/-- C4 (amended, witness): the Close alert `"SPY stopped out"` against one
tracked SPY position classifies as `ALL OUT` and the position is removed:
the amended theorem applied at this concrete input. -/
theorem stc_removed_iff_all_out_witness :
    pyUpper "STC" = "STC" ∧
    processTradeAlert "STC" "trader" ("SPY stopped out".toList) oct12 1001
      (1/5) (1/10) false fzZero odFix [spyTracked] =
      some (⟨"STC", "SPY", "450", "call", 0, ⟨2026, 10, 16⟩, 0, "ALL OUT", 1⟩,
        []) ∧
    (([] : List TrackedTrade).length + 1 = [spyTracked].length ↔
      (⟨"STC", "SPY", "450", "call", 0, ⟨2026, 10, 16⟩, 0, "ALL OUT", 1⟩ :
        TradeInfo).InfoType = "ALL OUT") := by
  have ht : tickerSearch ("SPY stopped out".toList) =
      some ([], "SPY".toList, " stopped out".toList) := by decide
  have hstop : containsSub "STOP".toList ("SPY".toList) = false := by decide
  have hlen : ((([] : List Char)).length : ℚ) /
      ((("SPY stopped out".toList)).length : ℚ) < 3/4 := by
    rw [show ([] : List Char).length = 0 from rfl,
      show ("SPY stopped out".toList).length = 15 from by decide]
    norm_num
  have hprep : stcPrepare "STC" "trader" ("SPY stopped out".toList) 1001 fzZero
      [spyTracked] = .good ⟨"STC", "SPY", "450", "call", 0, ⟨2026, 10, 16⟩, 0, "", 0⟩
        ("stopped out".toList) 0
        [⟨"SPY", 1001, "450", "call", 3, ⟨2026, 10, 16⟩⟩] := by
    rw [stcPrepare_with_ticker ht hstop hlen]
    rw [show findTradeMatchIdx (String.mk ("SPY".toList)) fzZero [spyTracked] =
      .found 0 from by rfl]
    rfl
  have hstc : processSTC "STC" "trader" ("SPY stopped out".toList) oct12 1001
      fzZero [spyTracked] =
      some (⟨"STC", "SPY", "450", "call", 0, ⟨2026, 10, 16⟩, 0, "ALL OUT", 1⟩,
        []) := by
    unfold processSTC
    rw [hprep]
    rfl
  have hEval : processTradeAlert "STC" "trader" ("SPY stopped out".toList)
      oct12 1001 (1/5) (1/10) false fzZero odFix [spyTracked] =
      some (⟨"STC", "SPY", "450", "call", 0, ⟨2026, 10, 16⟩, 0, "ALL OUT", 1⟩,
        []) := by
    unfold processTradeAlert
    rw [if_neg (by decide)]
    dsimp only
    rw [if_neg (by decide), if_pos (by decide : pyUpper "STC" = "STC")]
    rw [hstc]
    rfl
  exact ⟨by decide,  hEval,
    stc_removed_iff_all_out "STC" "trader" ("SPY stopped out".toList) oct12
      1001 (1/5) (1/10) false fzZero odFix [spyTracked] _ _ (by decide) hEval⟩

/-! ## Claim C5 — the close fraction and the unit interval -/

/-- C5 (counterexample): the Close alert `"SPY 200"` against one tracked SPY
position is returned as valid (`Signal = "STC"`), but its resolved close
fraction is `2.0` — a bare integer amount above `100` escapes the claimed
interval `(0, 1]`, because the numeric branch only divides by `100`. -/
theorem close_fraction_above_one :
    processTradeAlert "STC" "trader" ("SPY 200".toList) oct12 1001 (1/5) (1/10)
      false fzZero odFix [spyTracked] =
    some (⟨"STC", "SPY", "450", "call", 0, ⟨2026, 10, 16⟩, 0, "SPECIFIC", 2⟩,
      [⟨"SPY", 1001, "450", "call", 3, ⟨2026, 10, 16⟩⟩]) ∧ (1 : ℚ) < 2 := by
  refine ⟨?_, by norm_num⟩
  have hcls : classifySell (sellSearch ("200".toList)) = ("SPECIFIC", 2) := by
    have h2 : classifySell (sellSearch ("200".toList)) =
        ("SPECIFIC", pyRound2 (((200 : ℕ) : ℚ) / 100)) := by rfl
    rw [h2]
    have h3 : (((200 : ℕ) : ℚ)) / 100 = ((200 : ℤ) : ℚ) / 100 := by norm_num
    rw [h3, pyRound2_int_div_100]
    norm_num
  have ht : tickerSearch ("SPY 200".toList) =
      some ([], "SPY".toList, " 200".toList) := by decide
  have hstop : containsSub "STOP".toList ("SPY".toList) = false := by decide
  have hlen : ((([] : List Char)).length : ℚ) / ((("SPY 200".toList)).length : ℚ)
      < 3/4 := by
    rw [show ([] : List Char).length = 0 from rfl,
      show ("SPY 200".toList).length = 7 from by decide]
    norm_num
  have hprep : stcPrepare "STC" "trader" ("SPY 200".toList) 1001 fzZero
      [spyTracked] = .good ⟨"STC", "SPY", "450", "call", 0, ⟨2026, 10, 16⟩, 0, "", 0⟩
        ("200".toList) 0 [⟨"SPY", 1001, "450", "call", 3, ⟨2026, 10, 16⟩⟩] := by
    rw [stcPrepare_with_ticker ht hstop hlen]
    rw [show findTradeMatchIdx (String.mk ("SPY".toList)) fzZero [spyTracked] =
      .found 0 from by rfl]
    rfl
  have hstc : processSTC "STC" "trader" ("SPY 200".toList) oct12 1001 fzZero
      [spyTracked] =
      some (⟨"STC", "SPY", "450", "call", 0, ⟨2026, 10, 16⟩, 0, "SPECIFIC", 2⟩,
        [⟨"SPY", 1001, "450", "call", 3, ⟨2026, 10, 16⟩⟩]) := by
    unfold processSTC
    rw [hprep]
    dsimp only
    rw [hcls]
    dsimp only
    rw [if_neg (by decide : ¬ ("SPECIFIC" : String) = "ALL OUT")]
  unfold processTradeAlert
  rw [if_neg (by decide)]
  dsimp only
  rw [if_neg (by decide), if_pos (by decide : pyUpper "STC" = "STC")]
  rw [hstc]
  rfl

/-- C5 (amended): for a Close alert returned as valid, the close fraction
lies in `(0, 1]` PROVIDED the sell-amount match on the prepared content is a
keyword match (regex group 1 or 2) or absent; the guarantee does not extend
to group-3 bare numeric tokens. -/
theorem close_fraction_in_unit_interval (signal author : String)
    (content : List Char) (today : PyDate) (now dSL invest : ℚ) (paper : Bool)
    (fz : String → String → ℕ) (od : DateOracles) (l : List TrackedTrade)
    (info : TradeInfo) (tr' : List TrackedTrade)
    (hsig : pyUpper signal = "STC")
    (h : processTradeAlert signal author content today now dSL invest paper
      fz od l = some (info, tr'))
    (hok : info.ok = true)
    (hkw : ∀ i1 c2 i tr1, stcPrepare signal author content now fz l =
      .good i1 c2 i tr1 →
      ∀ pre g, sellSearch c2 = some (pre, g) → g.group = 1 ∨ g.group = 2) :
    0 < info.InfoPercent ∧ info.InfoPercent ≤ 1 := by
  unfold processTradeAlert at h
  split at h
  · simp only [Option.some.injEq, Prod.mk.injEq] at h
    obtain ⟨h1, h2⟩ := h
    rw [← h1] at hok
    rw [show (initInfo today).ok = false from rfl] at hok
    exact Bool.noConfusion hok
  · dsimp only at h
    rw [hsig] at h
    rw [if_neg (by decide)] at h
    unfold processSTC at h
    rcases hp : stcPrepare signal author content now fz l with _ | _ |
      ⟨i1, c2, i, tr1⟩ <;> rw [hp] at h
    · dsimp only at h
      rw [if_neg (show ¬ (paper &&
          decide ((initInfo today).Ticker = "SPX")) = true by
        simp [initInfo])] at h
      simp only [Option.some.injEq, Prod.mk.injEq] at h
      obtain ⟨h1, h2⟩ := h
      rw [← h1] at hok
      rw [show (initInfo today).ok = false from rfl] at hok
      exact Bool.noConfusion hok
    · exact Option.noConfusion h
    · have hcr := classifySell_range (sellSearch c2) (hkw i1 c2 i tr1 hp)
      dsimp only at h
      by_cases hA : (classifySell (sellSearch c2)).1 = "ALL OUT"
      · rw [if_pos hA] at h
        split at h
        next r heq => exact Option.noConfusion h
        next r i0 t0 heq =>
          split at heq
          next j hj =>
            simp only [Option.some.injEq, Prod.mk.injEq] at heq
            obtain ⟨e1, e2⟩ := heq
            split at h <;>
              simp only [Option.some.injEq, Prod.mk.injEq] at h <;>
              obtain ⟨h1, h2⟩ := h <;> rw [← h1, ← e1] <;> exact hcr
          next hj => exact Option.noConfusion heq
      · rw [if_neg hA] at h
        dsimp only at h
        split at h <;>
          simp only [Option.some.injEq, Prod.mk.injEq] at h <;>
          obtain ⟨h1, h2⟩ := h <;> rw [← h1] <;> exact hcr

/-- C5 (amended, witness): the Close alert `"SPY half"` against one tracked
SPY position is valid, its sell match is the group-2 keyword `half`, and the
amended theorem applied here places its fraction `0.5` in `(0, 1]`. -/
theorem close_fraction_in_unit_interval_witness :
    pyUpper "STC" = "STC" ∧
    processTradeAlert "STC" "trader" ("SPY half".toList) oct12 1001 (1/5)
      (1/10) false fzZero odFix [spyTracked] =
      some (⟨"STC", "SPY", "450", "call", 0, ⟨2026, 10, 16⟩, 0, "HALF", 1/2⟩,
        [⟨"SPY", 1001, "450", "call", 3, ⟨2026, 10, 16⟩⟩]) ∧
    ((⟨"STC", "SPY", "450", "call", 0, ⟨2026, 10, 16⟩, 0, "HALF", 1/2⟩ :
        TradeInfo).ok = true) ∧
    (0 < (⟨"STC", "SPY", "450", "call", 0, ⟨2026, 10, 16⟩, 0, "HALF", 1/2⟩ :
        TradeInfo).InfoPercent ∧
      (⟨"STC", "SPY", "450", "call", 0, ⟨2026, 10, 16⟩, 0, "HALF", 1/2⟩ :
        TradeInfo).InfoPercent ≤ 1) := by
  have ht : tickerSearch ("SPY half".toList) =
      some ([], "SPY".toList, " half".toList) := by decide
  have hstop : containsSub "STOP".toList ("SPY".toList) = false := by decide
  have hlen : ((([] : List Char)).length : ℚ) /
      ((("SPY half".toList)).length : ℚ) < 3/4 := by
    rw [show ([] : List Char).length = 0 from rfl,
      show ("SPY half".toList).length = 8 from by decide]
    norm_num
  have hprep : stcPrepare "STC" "trader" ("SPY half".toList) 1001 fzZero
      [spyTracked] = .good ⟨"STC", "SPY", "450", "call", 0, ⟨2026, 10, 16⟩, 0, "", 0⟩
        ("half".toList) 0 [⟨"SPY", 1001, "450", "call", 3, ⟨2026, 10, 16⟩⟩] := by
    rw [stcPrepare_with_ticker ht hstop hlen]
    rw [show findTradeMatchIdx (String.mk ("SPY".toList)) fzZero [spyTracked] =
      .found 0 from by rfl]
    rfl
  have hstc : processSTC "STC" "trader" ("SPY half".toList) oct12 1001 fzZero
      [spyTracked] =
      some (⟨"STC", "SPY", "450", "call", 0, ⟨2026, 10, 16⟩, 0, "HALF", 1/2⟩,
        [⟨"SPY", 1001, "450", "call", 3, ⟨2026, 10, 16⟩⟩]) := by
    unfold processSTC
    rw [hprep]
    rfl
  have hEval : processTradeAlert "STC" "trader" ("SPY half".toList) oct12 1001
      (1/5) (1/10) false fzZero odFix [spyTracked] =
      some (⟨"STC", "SPY", "450", "call", 0, ⟨2026, 10, 16⟩, 0, "HALF", 1/2⟩,
        [⟨"SPY", 1001, "450", "call", 3, ⟨2026, 10, 16⟩⟩]) := by
    unfold processTradeAlert
    rw [if_neg (by decide)]
    dsimp only
    rw [if_neg (by decide), if_pos (by decide : pyUpper "STC" = "STC")]
    rw [hstc]
    rfl
  have hkw : ∀ i1 c2 i tr1, stcPrepare "STC" "trader" ("SPY half".toList) 1001
      fzZero [spyTracked] = .good i1 c2 i tr1 →
      ∀ pre g, sellSearch c2 = some (pre, g) →
        g.group = 1 ∨ g.group = 2 := by
    intro i1 c2 i tr1 hpe
    rw [hprep] at hpe
    injection hpe with e1 e2 e3 e4
    subst e2
    intro pre g hg
    rw [show sellSearch ("half".toList) =
      some ([], ⟨2, "half".toList, []⟩) from by decide] at hg
    injection hg with e5
    have e6 : g = ⟨2, "half".toList, []⟩ := by
      have := congrArg Prod.snd e5
      exact this.symm
    rw [e6]
    right
    rfl
  exact ⟨by decide, hEval, by decide,
    close_fraction_in_unit_interval "STC" "trader" ("SPY half".toList) oct12
      1001 (1/5) (1/10) false fzZero odFix [spyTracked] _ _ (by decide) hEval
      (by decide) hkw⟩

/-! ## Claim C7 — a concrete Open (BTO) alert -/

/-- C7: an Open alert `"SPY 450 call 2.50 tomorrow stop 2.00"`, when the
configured default stop-loss fraction is at most 20%, is returned ok with
ticker `SPY`, strike `450`, direction `call`, price `2.50`, expiration
`today + 1 day` and stop-loss price `2.00`; the position is appended to the
tracker. -/
theorem bto_tomorrow_stop_alert (today : PyDate) (now dSL invest : ℚ)
    (paper : Bool) (fz : String → String → ℕ) (od : DateOracles)
    (tracker : List TrackedTrade) (hd : dSL ≤ 1/5) :
    processTradeAlert "BTO" "trader"
      ("SPY 450 call 2.50 tomorrow stop 2.00".toList) today now dSL invest
      paper fz od tracker =
    some (⟨"BTO", "SPY", "450", "call", 5/2, addDays today 1, 2,
        "RISKY/SWING", invest - invest * (3/10)⟩,
      tracker ++ [⟨"SPY", now, "450", "call", 5/2, addDays today 1⟩]) := by
  have h1 : tickerStage ("SPY 450 call 2.50 tomorrow stop 2.00".toList) =
      some ("SPY", "450 call 2.50 tomorrow stop 2.00".toList) := by decide
  have h2 : strikeStage ("450 call 2.50 tomorrow stop 2.00".toList) =
      some ("450", "call 2.50 tomorrow stop 2.00".toList) := by decide
  have h3 : directionStage ("call 2.50 tomorrow stop 2.00".toList) =
      some ("call", "2.50 tomorrow stop 2.00".toList) := by decide
  have h4 : priceStage ("2.50 tomorrow stop 2.00".toList) =
      .ok (5/2) ("tomorrow stop 2.00".toList) := by
    unfold priceStage
    rw [show priceSearch ("2.50 tomorrow stop 2.00".toList) =
      some ([], "2.50".toList, " tomorrow stop 2.00".toList) from by decide]
    dsimp only
    rw [show parseFloat (fixTypos ("2.50".toList)) =
      some (((2 : ℕ) : ℚ) + ((50 : ℕ) : ℚ) / (10 : ℚ) ^ 2) from by rfl]
    dsimp only
    rw [show ((2 : ℕ) : ℚ) + ((50 : ℕ) : ℚ) / (10 : ℚ) ^ 2 =
      ((250 : ℤ) : ℚ) / 100 from by norm_num, pyRound2_int_div_100]
    simp only [PriceRes.ok.injEq]
    refine ⟨by norm_num, by decide⟩
  have h5 : expStage today od ("tomorrow stop 2.00".toList) =
      (addDays today 1, "stop 2.00".toList) := by
    unfold expStage
    rw [show expSearch ("tomorrow stop 2.00".toList) =
      some ([], ⟨1, "tomorrow".toList, " stop 2.00".toList⟩) from by decide]
    dsimp only
    rw [if_pos (show ((⟨1, "tomorrow".toList, " stop 2.00".toList⟩ :
        GMatch).group = 1) from rfl)]
    rw [if_neg (by decide), if_pos (by decide)]
    rfl
  have hsp : pyRound2 (((2 : ℕ) : ℚ) + ((0 : ℕ) : ℚ) / (10 : ℚ) ^ 2) = 2 := by
    rw [show ((2 : ℕ) : ℚ) + ((0 : ℕ) : ℚ) / (10 : ℚ) ^ 2 =
      ((200 : ℤ) : ℚ) / 100 from by norm_num, pyRound2_int_div_100]
    norm_num
  have h6 : stopStage dSL (5/2) (addDays today 1) today ("stop 2.00".toList) =
      some (2, "stop".toList) := by
    unfold stopStage
    rw [show stopSearch ("stop 2.00".toList) =
      some ("stop ".toList, ⟨1, "2.00".toList, []⟩) from by decide]
    dsimp only
    rw [if_pos (show ((⟨1, "2.00".toList, []⟩ : GMatch).group = 1) from rfl)]
    rw [show parseFloat (fixTypos ("2.00".toList)) =
      some (((2 : ℕ) : ℚ) + ((0 : ℕ) : ℚ) / (10 : ℚ) ^ 2) from by rfl]
    dsimp only
    rw [hsp]
    rw [if_neg (show ¬ (5/2 : ℚ) = 0 by norm_num)]
    rw [if_neg (show ¬ (1 - (2 : ℚ) / (5/2) < dSL) by
      rw [show (1 : ℚ) - 2 / (5/2) = 1/5 from by norm_num]
      exact not_lt.mpr hd)]
    rfl
  have h7 : riskStage invest ("stop".toList) =
      ("RISKY/SWING", invest - invest * (3/10)) := by
    unfold riskStage
    rw [if_neg (by decide)]
  have hB : processBTO "BTO" dSL invest today now od
      ("SPY 450 call 2.50 tomorrow stop 2.00".toList) tracker =
      some (⟨"BTO", "SPY", "450", "call", 5/2, addDays today 1, 2,
          "RISKY/SWING", invest - invest * (3/10)⟩,
        tracker ++ [⟨"SPY", now, "450", "call", 5/2, addDays today 1⟩]) := by
    unfold processBTO
    rw [h1]
    dsimp only
    rw [h2]
    dsimp only
    rw [h3]
    dsimp only
    rw [h4]
    dsimp only
    rw [h5]
    dsimp only
    rw [h6]
    dsimp only
    rw [h7]
  unfold processTradeAlert
  rw [if_neg (by decide)]
  dsimp only
  rw [if_pos (by decide : pyUpper "BTO" = "BTO")]
  rw [hB]
  dsimp only
  rw [if_neg (show ¬ (paper && decide (("SPY" : String) = "SPX")) = true by
    simp)]

/-- C7 (witness): the theorem applied at a concrete session date, clock,
investment and configuration. -/
theorem bto_tomorrow_stop_alert_witness :
    (1/5 : ℚ) ≤ 1/5 ∧
    processTradeAlert "BTO" "trader"
      ("SPY 450 call 2.50 tomorrow stop 2.00".toList) oct12 1001 (1/5) 100
      false fzZero odFix [] =
    some (⟨"BTO", "SPY", "450", "call", 5/2, addDays oct12 1, 2,
        "RISKY/SWING", 100 - 100 * (3/10)⟩,
      [⟨"SPY", 1001, "450", "call", 5/2, addDays oct12 1⟩]) :=
  ⟨le_refl _, bto_tomorrow_stop_alert oct12 1001 (1/5) 100 false fzZero odFix
    [] (le_refl _)⟩

/-! ## Claim C9 — paper-mode SPX rejection is not atomic -/

/-- C9: an Open (BTO) alert in paper-trading mode whose ticker is `SPX` and
whose ticker, strike, direction and price stages all succeed is returned
invalid (`Signal = ""`), yet the parsed position has already been appended
to the tracker and remains there after the rejection. -/
theorem bto_spx_paper_reject_tracker_append (author : String)
    (content : List Char) (today : PyDate) (now dSL invest : ℚ)
    (fz : String → String → ℕ) (od : DateOracles) (tracker : List TrackedTrade)
    (c1 c2 c3 c4 : List Char) (stk dir : String) (p : ℚ)
    (info : TradeInfo) (tr' : List TrackedTrade)
    (hvc : (containsSub "VERTICAL".toList (upperL content) ||
      containsSub "COMMON".toList (upperL content)) = false)
    (h1 : tickerStage content = some ("SPX", c1))
    (h2 : strikeStage c1 = some (stk, c2))
    (h3 : directionStage c2 = some (dir, c3))
    (h4 : priceStage c3 = .ok p c4)
    (h : processTradeAlert "BTO" author content today now dSL invest true
      fz od tracker = some (info, tr')) :
    info.Signal = "" ∧
      tr' = tracker ++ [⟨"SPX", now, stk, dir, p, (expStage today od c4).1⟩] := by
  unfold processTradeAlert at h
  rw [if_neg (show ¬ (containsSub "VERTICAL".toList (upperL content) ||
      containsSub "COMMON".toList (upperL content)) = true by
    rw [hvc]; decide)] at h
  dsimp only at h
  rw [if_pos (by decide : pyUpper "BTO" = "BTO")] at h
  unfold processBTO at h
  rw [h1] at h
  dsimp only at h
  rw [h2] at h
  dsimp only at h
  rw [h3] at h
  dsimp only at h
  rw [h4] at h
  dsimp only at h
  rcases hexp : expStage today od c4 with ⟨expd, c5⟩
  rw [hexp] at h
  dsimp only at h
  rcases hss : stopStage dSL p expd today c5 with _ | ⟨sl, c6⟩ <;> rw [hss] at h
  · exact Option.noConfusion h
  · dsimp only at h
    rcases hrk : riskStage invest c6 with ⟨ty, pct⟩
    rw [hrk] at h
    dsimp only at h
    rw [if_pos (by decide :
      (true && decide (("SPX" : String) = "SPX")) = true)] at h
    simp only [Option.some.injEq, Prod.mk.injEq] at h
    obtain ⟨hi, htr⟩ := h
    constructor
    · rw [← hi]
    · exact htr.symm

/-- C9 (witness): the theorem applied to the paper-mode alert
`"SPX 6000 c 12.50 0DTE"` on an empty tracker: the result is invalid but the
SPX position is in the returned tracker. -/
theorem bto_spx_paper_reject_tracker_append_witness :
    (containsSub "VERTICAL".toList (upperL ("SPX 6000 c 12.50 0DTE".toList)) ||
      containsSub "COMMON".toList (upperL ("SPX 6000 c 12.50 0DTE".toList)))
      = false ∧
    tickerStage ("SPX 6000 c 12.50 0DTE".toList) =
      some ("SPX", "6000 c 12.50 0DTE".toList) ∧
    strikeStage ("6000 c 12.50 0DTE".toList) =
      some ("6000", "c 12.50 0DTE".toList) ∧
    directionStage ("c 12.50 0DTE".toList) =
      some ("call", "12.50 0DTE".toList) ∧
    priceStage ("12.50 0DTE".toList) = .ok (25/2) ("0DTE".toList) ∧
    processTradeAlert "BTO" "trader" ("SPX 6000 c 12.50 0DTE".toList) oct12
      1001 (1/5) 100 true fzZero odFix [] =
      some (⟨"", "", "", "", 0, oct12, 0, "RISKY/SWING", 100 - 100 * (3/10)⟩,
        [⟨"SPX", 1001, "6000", "call", 25/2, oct12⟩]) ∧
    ((⟨"", "", "", "", 0, oct12, 0, "RISKY/SWING", 100 - 100 * (3/10)⟩ :
        TradeInfo).Signal = "" ∧
      [⟨"SPX", 1001, "6000", "call", 25/2, oct12⟩] = ([] : List TrackedTrade) ++
        [⟨"SPX", 1001, "6000", "call", 25/2,
          (expStage oct12 odFix ("0DTE".toList)).1⟩]) := by
  have h4w : priceStage ("12.50 0DTE".toList) = .ok (25/2) ("0DTE".toList) := by
    unfold priceStage
    rw [show priceSearch ("12.50 0DTE".toList) =
      some ([], "12.50".toList, " 0DTE".toList) from by decide]
    dsimp only
    rw [show parseFloat (fixTypos ("12.50".toList)) =
      some (((12 : ℕ) : ℚ) + ((50 : ℕ) : ℚ) / (10 : ℚ) ^ 2) from by rfl]
    dsimp only
    rw [show ((12 : ℕ) : ℚ) + ((50 : ℕ) : ℚ) / (10 : ℚ) ^ 2 =
      ((1250 : ℤ) : ℚ) / 100 from by norm_num, pyRound2_int_div_100]
    simp only [PriceRes.ok.injEq]
    refine ⟨by norm_num, by decide⟩
  have h5w : expStage oct12 odFix ("0DTE".toList) = (oct12, []) := by
    unfold expStage
    rw [show expSearch ("0DTE".toList) =
      some ([], ⟨1, "0DTE".toList, []⟩) from by decide]
    dsimp only
    rw [if_pos (show ((⟨1, "0DTE".toList, []⟩ : GMatch).group = 1) from rfl)]
    rw [if_neg (by decide), if_neg (by decide), if_pos (by decide)]
    rfl
  have h6w : stopStage (1/5) (25/2) oct12 oct12 ([] : List Char) =
      some (10, []) := by
    unfold stopStage
    rw [show stopSearch ([] : List Char) = none from rfl]
    dsimp only
    unfold defaultStopLoss
    dsimp only
    rw [if_neg (by decide : ¬ (1 : ℤ) < monthsTillExp oct12 oct12)]
    rw [show (25/2 : ℚ) - 25/2 * (1/5) = ((1000 : ℤ) : ℚ) / 100 from by
      norm_num, pyRound2_int_div_100]
    simp only [Option.some.injEq, Prod.mk.injEq]
    exact ⟨by norm_num, trivial⟩
  have h7w : riskStage 100 ([] : List Char) =
      ("RISKY/SWING", 100 - 100 * (3/10)) := by
    unfold riskStage
    rw [if_neg (by decide)]
  have hB : processBTO "BTO" (1/5) 100 oct12 1001 odFix
      ("SPX 6000 c 12.50 0DTE".toList) [] =
      some (⟨"BTO", "SPX", "6000", "call", 25/2, oct12, 10, "RISKY/SWING",
          100 - 100 * (3/10)⟩,
        [⟨"SPX", 1001, "6000", "call", 25/2, oct12⟩]) := by
    unfold processBTO
    rw [show tickerStage ("SPX 6000 c 12.50 0DTE".toList) =
      some ("SPX", "6000 c 12.50 0DTE".toList) from by decide]
    dsimp only
    rw [show strikeStage ("6000 c 12.50 0DTE".toList) =
      some ("6000", "c 12.50 0DTE".toList) from by decide]
    dsimp only
    rw [show directionStage ("c 12.50 0DTE".toList) =
      some ("call", "12.50 0DTE".toList) from by decide]
    dsimp only
    rw [h4w]
    dsimp only
    rw [h5w]
    dsimp only
    rw [h6w]
    dsimp only
    rw [h7w]
    rfl
  have hEval : processTradeAlert "BTO" "trader"
      ("SPX 6000 c 12.50 0DTE".toList) oct12 1001 (1/5) 100 true fzZero odFix
      [] =
      some (⟨"", "", "", "", 0, oct12, 0, "RISKY/SWING", 100 - 100 * (3/10)⟩,
        [⟨"SPX", 1001, "6000", "call", 25/2, oct12⟩]) := by
    unfold processTradeAlert
    rw [if_neg (by decide)]
    dsimp only
    rw [if_pos (by decide : pyUpper "BTO" = "BTO")]
    rw [hB]
    dsimp only
    rw [if_pos (by decide :
      (true && decide (("SPX" : String) = "SPX")) = true)]
  refine ⟨by decide, by decide, by decide, by decide, h4w, hEval, ?_⟩
  exact bto_spx_paper_reject_tracker_append "trader"
    ("SPX 6000 c 12.50 0DTE".toList) oct12 1001 (1/5) 100 fzZero odFix []
    ("6000 c 12.50 0DTE".toList) ("c 12.50 0DTE".toList) ("12.50 0DTE".toList)
    ("0DTE".toList) "6000" "call" (25/2) _ _ (by decide) (by decide)
    (by decide) (by decide) h4w hEval

end MirrorTrader
